import Mathlib

/-!
Verification of the `keyboard` repository: a fixed-block memory pool
(`src/src/mypool.c`) and a debounce/gesture keyboard driver
(`src/keyboard_driver.c`), shallowly embedded in Lean 4.

Machine integers are modelled as `Nat` with explicit reduction modulo
`2^16` / `2^32` at the points where the C code performs unsigned
arithmetic that can wrap.  Pool blocks are identified by their index in
address order; the payload handle returned by `mpool_alloc` and accepted
by `mpool_free` is that same index (in C they are the block address plus
the header size, so the correspondence is a bijection).  Function
pointers in the backend operation table are modelled as `Option`-wrapped
Lean functions (`none` = `NULL`); the matrix `select_row`/`unselect_row`
calls have no observable effect in a pure model beyond their presence,
so the row-dependent column read is modelled as a single function of row
and column, guarded by presence flags for all three pointers.
-/

namespace KeyboardRepo

/-- `2^16`, the modulus of `uint16_t` arithmetic. -/
def U16 : Nat := 65536

/-- `2^32`, the modulus of `uint32_t` arithmetic. -/
def U32 : Nat := 4294967296

/-! ## Configuration constants, from `inc/keyboard_config.h` (defaults) -/

def KEYBOARD_POOL_SIZE : Nat := 512
def KB_MAX_KEYS : Nat := 16
def KB_DEBOUNCE_MS : Nat := 20
def KB_LONGPRESS_MS : Nat := 800
def KB_REPEAT_START_MS : Nat := 500
def KB_REPEAT_PERIOD_MS : Nat := 80
def KB_DOUBLE_CLICK_MS : Nat := 250
def KB_GPIO_ACTIVE_LEVEL : Nat := 1
def KB_MATRIX_ACTIVE_LEVEL : Nat := 1
def KB_BACKEND_GPIO : Nat := 1
def KB_BACKEND_MATRIX : Nat := 2
def KB_BACKEND_CUSTOM : Nat := 3
/-- Default compiled-in backend mode (`KB_BACKEND_MODE`), the matrix backend. -/
def KB_BACKEND_MODE : Nat := KB_BACKEND_MATRIX
def KB_MATRIX_MAX_ROW : Nat := 8
def KB_MATRIX_MAX_COL : Nat := 8

/-! ## Result codes, from `inc/keyboard_driver.h` -/

def KB_OK : Int := 0
def KB_ERR_PARAM : Int := -1
def KB_ERR_BACKEND : Int := -2
def KB_ERR_POOL_CFG : Int := -3
def KB_ERR_RANGE : Int := -4
def KB_ERR_DUPLICATE : Int := -5
def KB_ERR_FULL : Int := -6
def KB_ERR_NOMEM : Int := -7

/-! ## The block pool, from `src/src/mypool.c` / `inc/inc/mypool.h` -/

/-- `MPOOL_ALIGN_UP(s) = ((s)+3u) & ~3u`: round up to a multiple of 4. -/
def MPOOL_ALIGN_UP (s : Nat) : Nat := (s + 3) / 4 * 4

/-- The pool control record `mpool_t`.  The free list is the chain of
free blocks, each identified by its index in address order within the
caller's buffer; `used` is the `uint16_t` used-block counter. -/
structure mpool_t where
  free_list : List Nat
  blk_size : Nat
  total : Nat
  used : Nat
deriving DecidableEq

/-- `mpool_init`: partition the buffer into `count` blocks and link them
into the free list in address order; `used = 0`.  The C code sets
`free_list = buf` before the loop and its loop bound `i < count - 1` is
evaluated after integer promotion, so at `count = 0` the loop body never
runs (`0 < -1` is false) but the trailing `p->next = NULL` store still
executes: a zero-block pool is left with a stray one-node free list
(the node at `buf`, block index 0) while `total = 0`. -/
def mpool_init (blk_size count : Nat) : mpool_t :=
  { free_list := if count = 0 then [0] else List.range count
    blk_size := blk_size
    total := count
    used := 0 }

/-- `mpool_alloc`: pop the free-list head and bump `used` (uint16).
Returns `none` when the pool is exhausted.  (The C code also zero-fills
the payload; payload bytes are not part of this model.) -/
def mpool_alloc (pool : mpool_t) : Option Nat × mpool_t :=
  match pool.free_list with
  | [] => (none, pool)
  | b :: rest =>
      (some b, { pool with free_list := rest, used := (pool.used + 1) % U16 })

/-- `mpool_free`: push the block back on the free-list head and
decrement `used` (uint16, wrapping).  No-op on a `NULL` handle. -/
def mpool_free (pool : mpool_t) (ptr : Option Nat) : mpool_t :=
  match ptr with
  | none => pool
  | some b =>
      { pool with free_list := b :: pool.free_list
                  used := (pool.used + (U16 - 1)) % U16 }

/-- `mpool_used_count`. -/
def mpool_used_count (p : mpool_t) : Nat := p.used

/-- `mpool_free_count`: `total - used` in `uint16_t` arithmetic. -/
def mpool_free_count (p : mpool_t) : Nat := (p.total + (U16 - p.used % U16)) % U16

/-! Pool operation sequences, for the C4 invariant.  A run carries the
pool together with the list of currently live (allocated, not yet
released) block handles, which is what "well-formed" quantifies over. -/

/-- One pool call: an allocation, or a release of handle `b`. -/
inductive PoolOp where
  | alloc : PoolOp
  | release : Nat → PoolOp
deriving DecidableEq

/-- Apply one pool call, tracking the set of live handles. -/
def poolStep (s : mpool_t × List Nat) (op : PoolOp) : mpool_t × List Nat :=
  match op with
  | .alloc =>
      match mpool_alloc s.1 with
      | (some b, p') => (p', b :: s.2)
      | (none, p') => (p', s.2)
  | .release b => (mpool_free s.1 (some b), s.2.erase b)

/-- Run a sequence of pool calls. -/
def poolRun (s : mpool_t × List Nat) : List PoolOp → mpool_t × List Nat
  | [] => s
  | op :: ops => poolRun (poolStep s op) ops

/-- A call sequence is well-formed when every release releases a handle
that is live at that point (obtained from an allocation and not yet
released). -/
def poolWF (s : mpool_t × List Nat) : List PoolOp → Bool
  | [] => true
  | op :: ops =>
      (match op with
       | .alloc => true
       | .release b => s.2.contains b) && poolWF (poolStep s op) ops

/-! ## Keyboard driver data model, from `inc/keyboard_driver.h` -/

/-- The event enumeration `kb_event_t`. -/
inductive kb_event_t where
  | KB_EVT_PRESS
  | KB_EVT_RELEASE
  | KB_EVT_CLICK
  | KB_EVT_LONGPRESS
  | KB_EVT_LONGPRESS_RELEASE
  | KB_EVT_REPEAT
  | KB_EVT_DOUBLE_CLICK
deriving DecidableEq

/-- The hardware-location union `keyboard_hw_ref_t`: two overlapping
bytes.  `gpio_pin` and `matrix.row` alias byte 0, `matrix.col` aliases
byte 1, and the 16-bit `hw_code` spans both (little-endian layout). -/
structure keyboard_hw_ref_t where
  byte0 : Nat
  byte1 : Nat
deriving DecidableEq

def keyboard_hw_ref_t.gpio_pin (h : keyboard_hw_ref_t) : Nat := h.byte0
def keyboard_hw_ref_t.matrix_row (h : keyboard_hw_ref_t) : Nat := h.byte0
def keyboard_hw_ref_t.matrix_col (h : keyboard_hw_ref_t) : Nat := h.byte1
def keyboard_hw_ref_t.hw_code (h : keyboard_hw_ref_t) : Nat := h.byte0 + 256 * h.byte1

/-- A registration descriptor `keyboard_key_cfg_t`.  `keyname = none`
models a `NULL` name pointer. -/
structure keyboard_key_cfg_t where
  keyname : Option String
  key_id : Nat
  hw : keyboard_hw_ref_t
deriving DecidableEq

/-- A registry node `keyboard_que_t`; the `next` chain is modelled by
the position of the node in the registry list. -/
structure keyboard_que_t where
  keyname : Option String
  key_id : Nat
  hw : keyboard_hw_ref_t
deriving DecidableEq

/-- The per-key runtime record `kb_key_runtime_t` (all fields are C
unsigned integers; `debounce_ms`/`press_ms`/`repeat_ms`/`click_wait_ms`
are `uint32_t`). -/
structure kb_key_runtime_t where
  raw_last : Nat
  stable : Nat
  long_sent : Nat
  click_count : Nat
  debounce_ms : Nat
  press_ms : Nat
  repeat_ms : Nat
  click_wait_ms : Nat
deriving DecidableEq

/-- The zeroed runtime record (`memset(key_rt, 0, ...)`). -/
def kb_rt_zero : kb_key_runtime_t := ⟨0, 0, 0, 0, 0, 0, 0, 0⟩

instance : Inhabited kb_key_runtime_t := ⟨kb_rt_zero⟩

/-- The backend operation table `keyboard_ops_t`.  A `none`/`false`
entry models a `NULL` function pointer.  The matrix row select and
unselect calls only have hardware side effects, so the level obtained
by the bracketed column read is modelled as one function of the
selected row and the read column. -/
structure keyboard_ops_t where
  read_pin : Option (Nat → Nat)
  matrix_select_row : Bool
  matrix_read_col : Option (Nat → Nat → Nat)
  matrix_unselect_row : Bool
  scan_snapshot : Option (Nat → Int × (Nat → Nat))
  get_tick_ms : Bool
  lock : Bool
  unlock : Bool

/-- The control block `keyboard_control_t`.  The event callback is
modelled by its presence (`keyboard_cb_on_event`); the events the C
code would pass to it are returned by `keyboard_poll` instead. -/
structure keyboard_control_t where
  backend_mode : Nat
  keyboard_ops : keyboard_ops_t
  keyboard_cb_on_event : Bool
  head : List keyboard_que_t
  key_num : Nat
  keyboard_pool : Option mpool_t

/-! ## Driver functions, from `src/keyboard_driver.c` -/

/-- `kb_hw_equal`: hardware-location equality under the given backend
mode.  (The C `NULL` guard cannot fire in this model: both references
are always taken of existing descriptors.) -/
def kb_hw_equal (backend_mode : Nat) (a b : keyboard_hw_ref_t) : Bool :=
  if backend_mode = KB_BACKEND_GPIO then
    a.gpio_pin == b.gpio_pin
  else if backend_mode = KB_BACKEND_MATRIX then
    a.matrix_row == b.matrix_row && a.matrix_col == b.matrix_col
  else
    a.hw_code == b.hw_code

/-- `kb_read_raw`: obtain one key's raw level for the given backend,
returning the inactive level 0 when a needed function pointer is
missing.  `snapshot` is the content of the (zero-initialised) local
snapshot buffer after a successful custom scan. -/
def kb_read_raw (ctl : keyboard_control_t) (node : keyboard_que_t) (index : Nat)
    (snapshot : Nat → Nat) : Nat :=
  if ctl.backend_mode = KB_BACKEND_GPIO then
    match ctl.keyboard_ops.read_pin with
    | none => 0
    | some rp => if rp node.hw.gpio_pin = KB_GPIO_ACTIVE_LEVEL then 1 else 0
  else if ctl.backend_mode = KB_BACKEND_MATRIX then
    if ctl.keyboard_ops.matrix_select_row = false ∨
        ctl.keyboard_ops.matrix_unselect_row = false then 0
    else
      match ctl.keyboard_ops.matrix_read_col with
      | none => 0
      | some rd =>
          if rd node.hw.matrix_row node.hw.matrix_col = KB_MATRIX_ACTIVE_LEVEL
          then 1 else 0
  else
    if index ≥ KB_MAX_KEYS then 0
    else if snapshot index ≠ 0 then 1 else 0

/-- Append an event to the bounded scratch buffer of `keyboard_poll`:
the append is performed only while `evt_num < KB_MAX_KEYS * 4`. -/
def kb_push (evts : List (keyboard_que_t × kb_event_t)) (node : keyboard_que_t)
    (e : kb_event_t) : List (keyboard_que_t × kb_event_t) :=
  if evts.length < KB_MAX_KEYS * 4 then evts ++ [(node, e)] else evts

/-- Debounce section of the scan-loop body (lines 292-303): a changed
raw sample resets the accumulator and is recorded; an unchanged sample
adds the tick delta while the accumulator is below the threshold. -/
def kb_step_debounce (raw dt : Nat) (rt : kb_key_runtime_t) : kb_key_runtime_t :=
  if raw ≠ rt.raw_last then
    { rt with raw_last := raw, debounce_ms := 0 }
  else if rt.debounce_ms < KB_DEBOUNCE_MS then
    { rt with debounce_ms := (rt.debounce_ms + dt) % U32 }
  else rt

/-- Stabilisation section of the scan-loop body (lines 305-370): when
the debounce accumulator has reached the threshold and the stable level
differs from the last raw sample, the stable level flips, emitting
PRESS, or RELEASE followed by the long-press-release / click /
double-click sequencing. -/
def kb_step_stabilize (node : keyboard_que_t) (rt : kb_key_runtime_t)
    (evts : List (keyboard_que_t × kb_event_t)) :
    kb_key_runtime_t × List (keyboard_que_t × kb_event_t) :=
  if KB_DEBOUNCE_MS ≤ rt.debounce_ms ∧ rt.stable ≠ rt.raw_last then
    if rt.raw_last ≠ 0 then
      ({ rt with stable := rt.raw_last,
                 press_ms := 0, repeat_ms := 0, long_sent := 0 },
       kb_push evts node .KB_EVT_PRESS)
    else
      let evts1 := kb_push evts node .KB_EVT_RELEASE
      if rt.long_sent ≠ 0 then
        ({ rt with stable := rt.raw_last, click_count := 0, click_wait_ms := 0,
                   press_ms := 0, repeat_ms := 0, long_sent := 0 },
         kb_push evts1 node .KB_EVT_LONGPRESS_RELEASE)
      else if rt.click_count = 0 then
        ({ rt with stable := rt.raw_last, click_count := 1, click_wait_ms := 0,
                   press_ms := 0, repeat_ms := 0, long_sent := 0 }, evts1)
      else if rt.click_count = 1 ∧ rt.click_wait_ms ≤ KB_DOUBLE_CLICK_MS then
        ({ rt with stable := rt.raw_last, click_count := 0, click_wait_ms := 0,
                   press_ms := 0, repeat_ms := 0, long_sent := 0 },
         kb_push evts1 node .KB_EVT_DOUBLE_CLICK)
      else
        ({ rt with stable := rt.raw_last, click_count := 1, click_wait_ms := 0,
                   press_ms := 0, repeat_ms := 0, long_sent := 0 }, evts1)
  else (rt, evts)

/-- Hold / release-wait section of the scan-loop body (lines 372-419):
while stably pressed accumulate press time, fire LONGPRESS once, and
run the repeat timer past the repeat-start threshold; while stably
released with one pending click accumulate the double-click wait and
fire CLICK when the window elapses. -/
def kb_step_gesture (node : keyboard_que_t) (dt : Nat) (rt : kb_key_runtime_t)
    (evts : List (keyboard_que_t × kb_event_t)) :
    kb_key_runtime_t × List (keyboard_que_t × kb_event_t) :=
  if rt.stable ≠ 0 then
    let rt5 : kb_key_runtime_t := { rt with press_ms := (rt.press_ms + dt) % U32 }
    let q : kb_key_runtime_t × List (keyboard_que_t × kb_event_t) :=
      if rt5.long_sent = 0 ∧ KB_LONGPRESS_MS ≤ rt5.press_ms then
        ({ rt5 with long_sent := 1 }, kb_push evts node .KB_EVT_LONGPRESS)
      else (rt5, evts)
    if KB_REPEAT_START_MS ≤ q.1.press_ms then
      let rt7 := { q.1 with repeat_ms := (q.1.repeat_ms + dt) % U32 }
      if KB_REPEAT_PERIOD_MS ≤ rt7.repeat_ms then
        ({ rt7 with repeat_ms := 0 }, kb_push q.2 node .KB_EVT_REPEAT)
      else (rt7, q.2)
    else q
  else
    if rt.click_count = 1 then
      let rt5 : kb_key_runtime_t :=
        { rt with click_wait_ms := (rt.click_wait_ms + dt) % U32 }
      if KB_DOUBLE_CLICK_MS ≤ rt5.click_wait_ms then
        ({ rt5 with click_count := 0, click_wait_ms := 0 },
         kb_push evts node .KB_EVT_CLICK)
      else (rt5, evts)
    else (rt, evts)

/-- The per-key body of the `keyboard_poll` scan loop (lines 292-419 of
`src/keyboard_driver.c`): debounce, then stabilisation, then the
hold/release gesture accumulation, threading the per-tick scratch event
buffer through. -/
def kb_key_step (node : keyboard_que_t) (raw dt : Nat) (rt : kb_key_runtime_t)
    (evts : List (keyboard_que_t × kb_event_t)) :
    kb_key_runtime_t × List (keyboard_que_t × kb_event_t) :=
  let p := kb_step_stabilize node (kb_step_debounce raw dt rt) evts
  kb_step_gesture node dt p.1 p.2

/-- The scan loop of `keyboard_poll`: walk the registry in order while
`idx < key_num` and `idx < KB_MAX_KEYS`, updating slot `idx` of the
runtime table and accumulating scratch events. -/
def kb_poll_loop (ctl : keyboard_control_t) (snapshot : Nat → Nat) (dt : Nat) :
    List keyboard_que_t → Nat → List kb_key_runtime_t →
    List (keyboard_que_t × kb_event_t) →
    List kb_key_runtime_t × List (keyboard_que_t × kb_event_t)
  | [], _, rtArr, evts => (rtArr, evts)
  | node :: rest, idx, rtArr, evts =>
      if idx < ctl.key_num ∧ idx < KB_MAX_KEYS then
        let raw := kb_read_raw ctl node idx snapshot
        let r := kb_key_step node raw dt (rtArr.getD idx kb_rt_zero) evts
        kb_poll_loop ctl snapshot dt rest (idx + 1) (rtArr.set idx r.1) r.2
      else (rtArr, evts)

/-- `keyboard_poll`: one tick.  Returns the updated runtime table and
the scratch event list recorded during the scan pass (the events the
final delivery loop hands to the callback, in emission order).  A zero
delta is a no-op; for the custom backend a missing or failing snapshot
call aborts the tick. -/
def keyboard_poll (ctl : keyboard_control_t) (rtArr : List kb_key_runtime_t)
    (dt : Nat) : List kb_key_runtime_t × List (keyboard_que_t × kb_event_t) :=
  if dt = 0 then (rtArr, [])
  else if ctl.backend_mode = KB_BACKEND_CUSTOM then
    match ctl.keyboard_ops.scan_snapshot with
    | none => (rtArr, [])
    | some scan =>
        let r := scan ctl.key_num
        if r.1 ≠ 0 then (rtArr, [])
        else kb_poll_loop ctl r.2 dt ctl.head 0 rtArr []
  else kb_poll_loop ctl (fun _ => 0) dt ctl.head 0 rtArr []

/-- The delivery loop at the end of `keyboard_poll`: `kb_emit_event`
invokes the callback for each recorded event in order, only when a
callback is registered. -/
def kb_deliver (ctl : keyboard_control_t)
    (evts : List (keyboard_que_t × kb_event_t)) :
    List (keyboard_que_t × kb_event_t) :=
  if ctl.keyboard_cb_on_event then evts else []

/-- `keyboard_register_key` (lines 156-236): parameter, range,
duplicate and capacity checks, then allocation from the pool and append
at the registry tail.  Returns the result code and the updated control
block (whose `keyboard_pool` field owns the pool state). -/
def keyboard_register_key (cfg : keyboard_key_cfg_t) (ctl : keyboard_control_t) :
    Int × keyboard_control_t :=
  match ctl.keyboard_pool with
  | none => (KB_ERR_PARAM, ctl)
  | some pool =>
    if cfg.keyname = none then (KB_ERR_PARAM, ctl)
    else if ctl.backend_mode = KB_BACKEND_MATRIX ∧
        (KB_MATRIX_MAX_ROW ≤ cfg.hw.matrix_row ∨
         KB_MATRIX_MAX_COL ≤ cfg.hw.matrix_col) then
      (KB_ERR_RANGE, ctl)
    else if ctl.head.any (fun t =>
        t.key_id == cfg.key_id || kb_hw_equal ctl.backend_mode t.hw cfg.hw) then
      (KB_ERR_DUPLICATE, ctl)
    else if KB_MAX_KEYS ≤ ctl.key_num then (KB_ERR_FULL, ctl)
    else
      match mpool_alloc pool with
      | (none, pool') => (KB_ERR_NOMEM, { ctl with keyboard_pool := some pool' })
      | (some _, pool') =>
          (KB_OK,
           { ctl with
              keyboard_pool := some pool'
              head := ctl.head ++ [⟨cfg.keyname, cfg.key_id, cfg.hw⟩]
              key_num := (ctl.key_num + 1) % U16 })

/-- `sizeof(keyboard_que_t)` on a 32-bit microcontroller target:
4-byte name pointer + 2-byte id + 2-byte hw union + 4-byte next
pointer. -/
def sizeof_keyboard_que_t : Nat := 12

/-- `sizeof(mpool_node_t)` on a 32-bit target: one pointer. -/
def sizeof_mpool_node_t : Nat := 4

/-- `keyboard_init` under the default compiled backend (matrix): checks
the matrix capability triple, sizes the pool from `KEYBOARD_POOL_SIZE`
and the block stride, clamps the block count to `KB_MAX_KEYS`, zeroes
the runtime table.  Returns the result code and, on success, the fresh
control block and runtime table. -/
def keyboard_init (ops : keyboard_ops_t) (cb_on_event : Bool) :
    Int × Option (keyboard_control_t × List kb_key_runtime_t) :=
  if ops.matrix_select_row = false ∨ ops.matrix_read_col.isNone ∨
      ops.matrix_unselect_row = false then
    (KB_ERR_BACKEND, none)
  else
    let stride := MPOOL_ALIGN_UP (sizeof_keyboard_que_t + sizeof_mpool_node_t)
    let count := KEYBOARD_POOL_SIZE / stride
    if count = 0 then (KB_ERR_POOL_CFG, none)
    else
      let count' := if count > KB_MAX_KEYS then KB_MAX_KEYS else count
      (KB_OK,
       some ({ backend_mode := KB_BACKEND_MODE
               keyboard_ops := ops
               keyboard_cb_on_event := cb_on_event
               head := []
               key_num := 0
               keyboard_pool := some (mpool_init sizeof_keyboard_que_t count') },
             List.replicate KB_MAX_KEYS kb_rt_zero))

/-! ## Scenario builders and multi-tick runs -/

/-- Count the occurrences of one event kind in a recorded event list. -/
def kb_count (e : kb_event_t) (l : List (keyboard_que_t × kb_event_t)) : Nat :=
  l.countP (fun p => p.2 == e)

/-- A matrix-backend operation table whose column read always returns
`level` (a single key wired to that level during the tick). -/
def mkMatrixOps (level : Nat) : keyboard_ops_t :=
  { read_pin := none
    matrix_select_row := true
    matrix_read_col := some (fun _ _ => level)
    matrix_unselect_row := true
    scan_snapshot := none
    get_tick_ms := false
    lock := false
    unlock := false }

/-- A control block with exactly one registered key under the matrix
backend, whose raw level reads as `level`, with a callback attached. -/
def mkCtl1 (node : keyboard_que_t) (level : Nat) : keyboard_control_t :=
  { backend_mode := KB_BACKEND_MATRIX
    keyboard_ops := mkMatrixOps level
    keyboard_cb_on_event := true
    head := [node]
    key_num := 1
    keyboard_pool := none }

/-- Poll the single-key control block once per entry of `levels`, each
tick with delta `dt` and the key's raw line at that entry's level.
Returns the final runtime table and all events of all ticks, in
delivery order. -/
def kb_run1 (node : keyboard_que_t) (dt : Nat) (levels : List Nat)
    (rtArr : List kb_key_runtime_t) :
    List kb_key_runtime_t × List (keyboard_que_t × kb_event_t) :=
  match levels with
  | [] => (rtArr, [])
  | l :: ls =>
      let r := keyboard_poll (mkCtl1 node l) rtArr dt
      let s := kb_run1 node dt ls r.1
      (s.1, r.2 ++ s.2)

/-- Iterate `kb_key_step` over a raw-level sequence for one key, each
tick starting from an empty scratch buffer (as `keyboard_poll` does);
the single-key runs of `kb_run1` reduce to this. -/
def kb_steps (node : keyboard_que_t) (dt : Nat) (levels : List Nat)
    (rt : kb_key_runtime_t) :
    kb_key_runtime_t × List (keyboard_que_t × kb_event_t) :=
  match levels with
  | [] => (rt, [])
  | l :: ls =>
      let r := kb_key_step node l dt rt []
      let s := kb_steps node dt ls r.1
      (s.1, r.2 ++ s.2)

/-- A concrete registered key used by concrete scenarios. -/
def nodeK : keyboard_que_t := ⟨some "K0", 1, ⟨0, 0⟩⟩

/-- An operation table with every function pointer `NULL`. -/
def opsNone : keyboard_ops_t :=
  ⟨none, false, none, false, none, false, false, false⟩

/-- A matrix-mode control block whose operation table is missing the
matrix capability triple (for the poll-time failure claim). -/
def ctlNoCap : keyboard_control_t :=
  { backend_mode := KB_BACKEND_MATRIX
    keyboard_ops := opsNone
    keyboard_cb_on_event := true
    head := [nodeK]
    key_num := 1
    keyboard_pool := none }

/-- A runtime record settled at the stably pressed level. -/
def rtPressed : kb_key_runtime_t := ⟨1, 1, 0, 0, 20, 40, 0, 0⟩

/-- Released-level runtime record with debounce at `d`, click counter
`cc` and double-click wait `w` (press/repeat accumulators clear). -/
def rtRel (cc d w : Nat) : kb_key_runtime_t := ⟨0, 0, 0, cc, d, 0, 0, w⟩

/-- Stably-pressed runtime record after `t` pressed ticks of 10 ms:
press time `10*t`, long-press flag and repeat accumulator as the state
machine leaves them, click counter `cc` and frozen wait `w`. -/
def rtHold (t cc w : Nat) : kb_key_runtime_t :=
  ⟨1, 1, if 80 ≤ t then 1 else 0, cc, 20, 10 * t,
   if 50 ≤ t then 10 * ((t - 49) % 8) else 0, w⟩

/-- A registration target: matrix control block owning a two-block pool
with one key already registered (for registration-failure scenarios). -/
def ctlReg : keyboard_control_t :=
  { backend_mode := KB_BACKEND_MATRIX
    keyboard_ops := mkMatrixOps 0
    keyboard_cb_on_event := false
    head := [nodeK]
    key_num := 1
    keyboard_pool := some (mpool_init 12 2) }

/-- The pool invariant: the free list and the used counter partition
the blocks, and the live-handle count mirrors `used`. -/
def poolInv (s : mpool_t × List Nat) : Prop :=
  s.1.used + s.1.free_list.length = s.1.total ∧
  s.2.length = s.1.used ∧ s.1.total < U16

/-! ## Theorems: the block pool (C4, C8) -/

/-- Running a concatenation of call sequences runs them in order. -/
lemma poolRun_append (s : mpool_t × List Nat) (ops1 ops2 : List PoolOp) :
    poolRun s (ops1 ++ ops2) = poolRun (poolRun s ops1) ops2 := by
  induction ops1 generalizing s with
  | nil => rfl
  | cons op ops ih => simp [poolRun, ih]

/-- Well-formedness restricts to both halves of a concatenation. -/
lemma poolWF_append (s : mpool_t × List Nat) (ops1 ops2 : List PoolOp) :
    poolWF s (ops1 ++ ops2) = true →
    poolWF s ops1 = true ∧ poolWF (poolRun s ops1) ops2 = true := by
  induction ops1 generalizing s with
  | nil => intro h; exact ⟨rfl, h⟩
  | cons op ops ih =>
      intro h
      simp only [List.cons_append, poolWF, Bool.and_eq_true] at h ⊢
      exact ⟨⟨h.1, (ih _ h.2).1⟩, (ih _ h.2).2⟩

/-- One well-formed pool call preserves the pool invariant. -/
lemma poolInv_step (s : mpool_t × List Nat) (op : PoolOp)
    (hop : ∀ b, op = .release b → b ∈ s.2) (h : poolInv s) :
    poolInv (poolStep s op) := by
  obtain ⟨h1, h2, h3⟩ := h
  cases op with
  | alloc =>
      cases hfl : s.1.free_list with
      | nil =>
          have hstep : poolStep s .alloc = s := by
            simp [poolStep, mpool_alloc, hfl]
          rw [hstep]; exact ⟨h1, h2, h3⟩
      | cons b rest =>
          have hlt : s.1.used + 1 < U16 := by
            rw [hfl] at h1; simp at h1; omega
          simp only [poolStep, mpool_alloc, hfl, poolInv, List.length_cons]
          rw [hfl] at h1; simp at h1
          constructor
          · simp [Nat.mod_eq_of_lt hlt]; omega
          · constructor
            · simp [Nat.mod_eq_of_lt hlt, h2]
            · exact h3
  | release b =>
      have hb : b ∈ s.2 := hop b rfl
      have hlen : 1 ≤ s.2.length := List.length_pos.mpr (List.ne_nil_of_mem hb)
      have hused : 1 ≤ s.1.used := h2 ▸ hlen
      have husedlt : s.1.used < U16 := by omega
      have hmod : (s.1.used + (U16 - 1)) % U16 = s.1.used - 1 := by
        simp only [U16] at husedlt ⊢; omega
      simp only [poolStep, mpool_free, poolInv, List.length_cons, hmod]
      refine ⟨by omega, ?_, h3⟩
      rw [List.length_erase_of_mem hb, h2]

/-- A well-formed run preserves the pool invariant. -/
lemma poolInv_run (s : mpool_t × List Nat) (ops : List PoolOp)
    (hwf : poolWF s ops = true) (h : poolInv s) : poolInv (poolRun s ops) := by
  induction ops generalizing s with
  | nil => exact h
  | cons op rest ih =>
      simp only [poolWF, Bool.and_eq_true] at hwf
      refine ih _ hwf.2 (poolInv_step s op ?_ h)
      intro b hb
      subst hb
      simpa using hwf.1

/-- A fresh pool with at least one block satisfies the invariant (a
zero-block pool does not: its free list holds the stray node). -/
lemma poolInv_init (bs count : Nat) (h0 : 1 ≤ count) (h : count < U16) :
    poolInv (mpool_init bs count, []) := by
  have hne : count ≠ 0 := by omega
  simp [poolInv, mpool_init, hne, h]

/-- State of a fresh pool (of at least one block) after `i` straight
allocations: blocks `0..i-1` handed out in address order, blocks
`i..count-1` still free. -/
lemma pool_allocs_state (bs count i : Nat) (h0 : 1 ≤ count) (hi : i ≤ count)
    (hc : count < U16) :
    poolRun (mpool_init bs count, []) (List.replicate i .alloc) =
      ({ free_list := List.range' i (count - i), blk_size := bs,
         total := count, used := i }, (List.range i).reverse) := by
  have hne : count ≠ 0 := by omega
  induction i with
  | zero =>
      simp [poolRun, mpool_init, hne, List.range_eq_range']
  | succ n ih =>
      rw [List.replicate_succ', poolRun_append]
      have hn : n ≤ count := by omega
      rw [ih hn]
      have hsub : count - n = (count - (n + 1)) + 1 := by omega
      have hrange : List.range' n (count - n) =
          n :: List.range' (n + 1) (count - (n + 1)) := by
        rw [hsub]; rfl
      simp only [poolRun, poolStep, mpool_alloc, hrange]
      have hmod : (n + 1) % U16 = n + 1 := Nat.mod_eq_of_lt (by omega)
      simp [hmod, List.range_succ]

/-- C4 counterexample: on a pool initialized with zero blocks the claim
fails.  The init loop bound `i < count - 1` is evaluated after integer
promotion, so at `count = 0` the loop is skipped but `free_list = buf`
and the trailing `next = NULL` store still run: the fresh pool carries a
one-node free list.  The very first allocation — the `total+1`-th with
`total = 0` — is well-formed, succeeds (returns non-NULL) instead of
failing, and leaves `used = 1 ≠ total - free_list_length = 0`. -/
theorem C4_zero_block_pool_counterexample :
    (mpool_init 12 0).total = 0 ∧
    poolWF (mpool_init 12 0, []) [.alloc] = true ∧
    (mpool_alloc (mpool_init 12 0)).1 ≠ none ∧
    (poolRun (mpool_init 12 0, []) [.alloc]).1.used ≠
      (poolRun (mpool_init 12 0, []) [.alloc]).1.total -
        (poolRun (mpool_init 12 0, []) [.alloc]).1.free_list.length := by
  decide

/-- C4 (amended): for every well-formed allocate/release sequence on a
fresh pool of `count` (`uint16`) blocks with at least one block, after
each call `used` equals `total` minus the free-list length; from such a
fresh pool the first `count` allocations all succeed (returning the
blocks in address order) and the `count+1`-th allocation with no
intervening release returns `NULL`.  At `count = 0` the program
violates all three parts (see the counterexample): the stray init node
makes the first allocation succeed. -/
theorem C4_pool_used_invariant :
    (∀ (bs count : Nat) (ops pre suf : List PoolOp),
        1 ≤ count → count < U16 →
        poolWF (mpool_init bs count, []) ops = true →
        ops = pre ++ suf →
        (poolRun (mpool_init bs count, []) pre).1.used =
          (poolRun (mpool_init bs count, []) pre).1.total -
            (poolRun (mpool_init bs count, []) pre).1.free_list.length) ∧
    (∀ (bs count i : Nat), 1 ≤ count → count < U16 → i < count →
        (mpool_alloc
          (poolRun (mpool_init bs count, []) (List.replicate i .alloc)).1).1 =
          some i) ∧
    (∀ (bs count : Nat), 1 ≤ count → count < U16 →
        (mpool_alloc
          (poolRun (mpool_init bs count, [])
            (List.replicate count .alloc)).1).1 = none) := by
  refine ⟨?_, ?_, ?_⟩
  · intro bs count ops pre suf h0 hc hwf heq
    subst heq
    have hpre := (poolWF_append _ pre suf hwf).1
    have hinv := poolInv_run _ pre hpre (poolInv_init bs count h0 hc)
    obtain ⟨h1, _, _⟩ := hinv
    omega
  · intro bs count i h0 hc hi
    rw [pool_allocs_state bs count i h0 (by omega) hc]
    have hsub : count - i = (count - (i + 1)) + 1 := by omega
    have hrange : List.range' i (count - i) =
        i :: List.range' (i + 1) (count - (i + 1)) := by
      rw [hsub]; rfl
    simp [mpool_alloc, hrange]
  · intro bs count h0 hc
    rw [pool_allocs_state bs count count h0 le_rfl hc]
    simp [mpool_alloc]

/-- Witness for C4 at a concrete pool and call sequence: two blocks,
allocate both, release the first handle, reallocate. -/
theorem C4_pool_used_invariant_witness :
    (poolRun (mpool_init 12 2, []) [.alloc, .alloc, .release 0]).1.used =
      (poolRun (mpool_init 12 2, []) [.alloc, .alloc, .release 0]).1.total -
        (poolRun (mpool_init 12 2, [])
          [.alloc, .alloc, .release 0]).1.free_list.length ∧
    (mpool_alloc
      (poolRun (mpool_init 12 2, []) (List.replicate 1 .alloc)).1).1 = some 1 ∧
    (mpool_alloc
      (poolRun (mpool_init 12 2, []) (List.replicate 2 .alloc)).1).1 = none := by
  refine ⟨?_, ?_, ?_⟩
  · exact C4_pool_used_invariant.1 12 2 [.alloc, .alloc, .release 0]
      [.alloc, .alloc, .release 0] [] (by decide) (by decide) (by decide)
      (by decide)
  · exact C4_pool_used_invariant.2.1 12 2 1 (by decide) (by decide) (by decide)
  · exact C4_pool_used_invariant.2.2 12 2 (by decide) (by decide)

/-- C8: from every pool state, releasing a handle and then immediately
allocating returns exactly that handle (LIFO reuse of the free list). -/
theorem C8_release_then_alloc_lifo (p : mpool_t) (b : Nat) :
    (mpool_alloc (mpool_free p (some b))).1 = some b := rfl

/-- Witness for C8 at a concrete pool state. -/
theorem C8_release_then_alloc_lifo_witness :
    (mpool_alloc (mpool_free (mpool_init 12 2) (some 7))).1 = some 7 :=
  C8_release_then_alloc_lifo (mpool_init 12 2) 7

/-! ## Theorems: registration failures (C5) -/

/-- Any failing registration call leaves the whole control block
(registry list, key count, pool) exactly as it was. -/
lemma keyboard_register_key_fail_state (cfg : keyboard_key_cfg_t)
    (ctl : keyboard_control_t)
    (h : (keyboard_register_key cfg ctl).1 ≠ KB_OK) :
    (keyboard_register_key cfg ctl).2 = ctl := by
  obtain ⟨bm, ops, cb, head, kn, kp⟩ := ctl
  cases kp with
  | none => rfl
  | some pool =>
      simp only [keyboard_register_key] at h ⊢
      split_ifs at h ⊢ <;> try rfl
      cases hfl : pool.free_list with
      | nil => simp [mpool_alloc, hfl]
      | cons b rest => simp [mpool_alloc, hfl] at h

/-- C5: every failing `keyboard_register_key` call is atomic — the
registry list, registered count and pool state are returned unchanged —
the five registration error codes are pairwise distinct, and each
failure condition (in the guard order of the code: bad parameter,
matrix range, duplicate id or hardware location, table full, pool
exhausted) yields its own code. -/
theorem C5_registration_failure_atomic :
    (∀ (cfg : keyboard_key_cfg_t) (ctl : keyboard_control_t),
        (keyboard_register_key cfg ctl).1 ≠ KB_OK →
        (keyboard_register_key cfg ctl).2 = ctl) ∧
    List.Pairwise (· ≠ ·)
      [KB_ERR_PARAM, KB_ERR_RANGE, KB_ERR_DUPLICATE, KB_ERR_FULL, KB_ERR_NOMEM] ∧
    (∀ cfg ctl, ctl.keyboard_pool = none ∨ cfg.keyname = none →
        (keyboard_register_key cfg ctl).1 = KB_ERR_PARAM) ∧
    (∀ cfg ctl, ctl.keyboard_pool ≠ none → cfg.keyname ≠ none →
        ctl.backend_mode = KB_BACKEND_MATRIX →
        KB_MATRIX_MAX_ROW ≤ cfg.hw.matrix_row ∨
          KB_MATRIX_MAX_COL ≤ cfg.hw.matrix_col →
        (keyboard_register_key cfg ctl).1 = KB_ERR_RANGE) ∧
    (∀ cfg ctl, ctl.keyboard_pool ≠ none → cfg.keyname ≠ none →
        ¬(ctl.backend_mode = KB_BACKEND_MATRIX ∧
            (KB_MATRIX_MAX_ROW ≤ cfg.hw.matrix_row ∨
             KB_MATRIX_MAX_COL ≤ cfg.hw.matrix_col)) →
        ctl.head.any (fun t =>
          t.key_id == cfg.key_id ||
          kb_hw_equal ctl.backend_mode t.hw cfg.hw) = true →
        (keyboard_register_key cfg ctl).1 = KB_ERR_DUPLICATE) ∧
    (∀ cfg ctl, ctl.keyboard_pool ≠ none → cfg.keyname ≠ none →
        ¬(ctl.backend_mode = KB_BACKEND_MATRIX ∧
            (KB_MATRIX_MAX_ROW ≤ cfg.hw.matrix_row ∨
             KB_MATRIX_MAX_COL ≤ cfg.hw.matrix_col)) →
        ctl.head.any (fun t =>
          t.key_id == cfg.key_id ||
          kb_hw_equal ctl.backend_mode t.hw cfg.hw) = false →
        KB_MAX_KEYS ≤ ctl.key_num →
        (keyboard_register_key cfg ctl).1 = KB_ERR_FULL) ∧
    (∀ cfg ctl pool, ctl.keyboard_pool = some pool → cfg.keyname ≠ none →
        ¬(ctl.backend_mode = KB_BACKEND_MATRIX ∧
            (KB_MATRIX_MAX_ROW ≤ cfg.hw.matrix_row ∨
             KB_MATRIX_MAX_COL ≤ cfg.hw.matrix_col)) →
        ctl.head.any (fun t =>
          t.key_id == cfg.key_id ||
          kb_hw_equal ctl.backend_mode t.hw cfg.hw) = false →
        ctl.key_num < KB_MAX_KEYS →
        pool.free_list = [] →
        (keyboard_register_key cfg ctl).1 = KB_ERR_NOMEM) := by
  refine ⟨keyboard_register_key_fail_state, by decide, ?_, ?_, ?_, ?_, ?_⟩
  · intro cfg ctl h
    obtain ⟨bm, ops, cb, head, kn, kp⟩ := ctl
    rcases h with h | h
    · simp at h; subst h; rfl
    · cases kp with
      | none => rfl
      | some pool => simp [keyboard_register_key, h]
  · intro cfg ctl hp hn hm hr
    obtain ⟨bm, ops, cb, head, kn, kp⟩ := ctl
    cases kp with
    | none => simp at hp
    | some pool =>
        simp only at hm
        subst hm
        simp [keyboard_register_key, hn, hr]
  · intro cfg ctl hp hn hm hd
    obtain ⟨bm, ops, cb, head, kn, kp⟩ := ctl
    cases kp with
    | none => simp at hp
    | some pool =>
        simp only [keyboard_register_key, if_neg hn, if_neg hm, if_pos hd]
  · intro cfg ctl hp hn hm hd hfull
    obtain ⟨bm, ops, cb, head, kn, kp⟩ := ctl
    cases kp with
    | none => simp at hp
    | some pool =>
        have hd' : ¬(head.any (fun t =>
            t.key_id == cfg.key_id || kb_hw_equal bm t.hw cfg.hw) = true) := by
          simp only at hd ⊢; rw [hd]; exact Bool.false_ne_true
        simp only [keyboard_register_key, if_neg hn, if_neg hm, if_neg hd',
          if_pos hfull]
  · intro cfg ctl pool hp hn hm hd hroom hempty
    obtain ⟨bm, ops, cb, head, kn, kp⟩ := ctl
    simp only at hp
    subst hp
    dsimp only at hn hm hd hroom
    have hd' : ¬(head.any (fun t =>
        t.key_id == cfg.key_id || kb_hw_equal bm t.hw cfg.hw) = true) := by
      rw [hd]; exact Bool.false_ne_true
    have hfull' : ¬(KB_MAX_KEYS ≤ kn) := by omega
    simp only [keyboard_register_key, if_neg hn, if_neg hm, if_neg hd',
      if_neg hfull', mpool_alloc, hempty]

/-- Witness for C5: registering a second key with an already-used key
id against `ctlReg` fails with the duplicate error and leaves the
control block unchanged. -/
theorem C5_registration_failure_atomic_witness :
    (keyboard_register_key ⟨some "K1", 1, ⟨3, 3⟩⟩ ctlReg).2 = ctlReg ∧
    (keyboard_register_key ⟨some "K1", 1, ⟨3, 3⟩⟩ ctlReg).1 =
      KB_ERR_DUPLICATE := by
  constructor
  · exact C5_registration_failure_atomic.1 ⟨some "K1", 1, ⟨3, 3⟩⟩ ctlReg
      (by decide)
  · exact C5_registration_failure_atomic.2.2.2.2.1 ⟨some "K1", 1, ⟨3, 3⟩⟩ ctlReg
      (by decide) (by decide) (by decide) (by decide)

/-! ## Theorems: poll-time failures (C6) -/

/-- C6 counterexample: under the matrix backend with the matrix
capability triple missing from the operation table, a poll tick is NOT
aborted — the key's runtime record is mutated (its raw sample tracks
the substituted inactive level), contradicting the claim that a
missing-capability tick leaves every runtime record unchanged. -/
theorem C6_missing_capability_counterexample :
    (keyboard_poll ctlNoCap [rtPressed] 10).1 ≠ [rtPressed] := by decide

/-- C6 (amended): only the custom backend's snapshot path aborts the
tick — a missing `scan_snapshot` pointer or a nonzero snapshot return
yields no events and leaves the runtime table untouched; for the
pin/matrix backends a missing capability is not detected at poll time,
the affected read simply yields the inactive level 0. -/
theorem C6_custom_snapshot_failure_aborts :
    (∀ (ctl : keyboard_control_t) (rtArr : List kb_key_runtime_t) (dt : Nat),
        ctl.backend_mode = KB_BACKEND_CUSTOM →
        ctl.keyboard_ops.scan_snapshot = none →
        keyboard_poll ctl rtArr dt = (rtArr, [])) ∧
    (∀ (ctl : keyboard_control_t) (rtArr : List kb_key_runtime_t) (dt : Nat)
        (scan : Nat → Int × (Nat → Nat)),
        ctl.backend_mode = KB_BACKEND_CUSTOM →
        ctl.keyboard_ops.scan_snapshot = some scan →
        (scan ctl.key_num).1 ≠ 0 →
        keyboard_poll ctl rtArr dt = (rtArr, [])) ∧
    (∀ (ctl : keyboard_control_t) (node : keyboard_que_t) (index : Nat)
        (snapshot : Nat → Nat),
        ctl.backend_mode = KB_BACKEND_MATRIX →
        ctl.keyboard_ops.matrix_read_col = none →
        kb_read_raw ctl node index snapshot = 0) := by
  refine ⟨?_, ?_, ?_⟩
  · intro ctl rtArr dt hb hscan
    by_cases hdt : dt = 0
    · simp [keyboard_poll, hdt]
    · simp [keyboard_poll, hdt, hb, hscan]
  · intro ctl rtArr dt scan hb hscan hst
    by_cases hdt : dt = 0
    · simp [keyboard_poll, hdt]
    · simp [keyboard_poll, hdt, hb, hscan, hst]
  · intro ctl node index snapshot hb hcol
    unfold kb_read_raw
    rw [hb]
    rw [if_neg (by decide : ¬(KB_BACKEND_MATRIX = KB_BACKEND_GPIO)), if_pos rfl]
    split_ifs with hsel
    · rfl
    · rw [hcol]

/-- Witness for C6 (amended): a custom-mode control block with no
snapshot function, and one whose snapshot call reports failure. -/
theorem C6_custom_snapshot_failure_aborts_witness :
    keyboard_poll
      { backend_mode := KB_BACKEND_CUSTOM, keyboard_ops := opsNone,
        keyboard_cb_on_event := true, head := [nodeK], key_num := 1,
        keyboard_pool := none } [rtPressed] 10 = ([rtPressed], []) ∧
    keyboard_poll
      { backend_mode := KB_BACKEND_CUSTOM,
        keyboard_ops := { opsNone with
          scan_snapshot := some (fun _ => ((-1 : Int), fun _ => 0)) },
        keyboard_cb_on_event := true, head := [nodeK], key_num := 1,
        keyboard_pool := none } [rtPressed] 10 = ([rtPressed], []) ∧
    kb_read_raw ctlNoCap nodeK 0 (fun _ => 0) = 0 := by
  refine ⟨?_, ?_, ?_⟩
  · exact C6_custom_snapshot_failure_aborts.1 _ [rtPressed] 10 rfl rfl
  · exact C6_custom_snapshot_failure_aborts.2.1 _ [rtPressed] 10 _ rfl rfl
      (by decide)
  · exact C6_custom_snapshot_failure_aborts.2.2 ctlNoCap nodeK 0 _ rfl rfl

/-! ## Theorems: bounded scratch event buffer (C7) -/

/-- `kb_push` preserves the scratch capacity bound. -/
lemma kb_push_length_le (evts : List (keyboard_que_t × kb_event_t))
    (node : keyboard_que_t) (e : kb_event_t)
    (h : evts.length ≤ KB_MAX_KEYS * 4) :
    (kb_push evts node e).length ≤ KB_MAX_KEYS * 4 := by
  unfold kb_push
  split_ifs with h1
  · simp only [List.length_append, List.length_cons, List.length_nil]
    omega
  · exact h

/-- The stabilisation section preserves the scratch capacity bound. -/
lemma kb_step_stabilize_length_le (node : keyboard_que_t)
    (rt : kb_key_runtime_t) (evts : List (keyboard_que_t × kb_event_t))
    (h : evts.length ≤ KB_MAX_KEYS * 4) :
    (kb_step_stabilize node rt evts).2.length ≤ KB_MAX_KEYS * 4 := by
  unfold kb_step_stabilize
  dsimp only
  split_ifs <;>
    first
      | exact h
      | exact kb_push_length_le _ _ _ h
      | exact kb_push_length_le _ _ _ (kb_push_length_le _ _ _ h)

/-- The gesture section preserves the scratch capacity bound. -/
lemma kb_step_gesture_length_le (node : keyboard_que_t) (dt : Nat)
    (rt : kb_key_runtime_t) (evts : List (keyboard_que_t × kb_event_t))
    (h : evts.length ≤ KB_MAX_KEYS * 4) :
    (kb_step_gesture node dt rt evts).2.length ≤ KB_MAX_KEYS * 4 := by
  unfold kb_step_gesture
  dsimp only
  split_ifs <;>
    first
      | exact h
      | exact kb_push_length_le _ _ _ h
      | exact kb_push_length_le _ _ _ (kb_push_length_le _ _ _ h)

/-- One per-key step preserves the scratch capacity bound. -/
lemma kb_key_step_length_le (node : keyboard_que_t) (raw dt : Nat)
    (rt : kb_key_runtime_t) (evts : List (keyboard_que_t × kb_event_t))
    (h : evts.length ≤ KB_MAX_KEYS * 4) :
    (kb_key_step node raw dt rt evts).2.length ≤ KB_MAX_KEYS * 4 := by
  unfold kb_key_step
  exact kb_step_gesture_length_le _ _ _ _ (kb_step_stabilize_length_le _ _ _ h)

/-- The scan loop preserves the scratch capacity bound. -/
lemma kb_poll_loop_length_le (ctl : keyboard_control_t) (snapshot : Nat → Nat)
    (dt : Nat) (nodes : List keyboard_que_t) (idx : Nat)
    (rtArr : List kb_key_runtime_t) (evts : List (keyboard_que_t × kb_event_t))
    (h : evts.length ≤ KB_MAX_KEYS * 4) :
    (kb_poll_loop ctl snapshot dt nodes idx rtArr evts).2.length ≤
      KB_MAX_KEYS * 4 := by
  induction nodes generalizing idx rtArr evts with
  | nil => exact h
  | cons node rest ih =>
      unfold kb_poll_loop
      split_ifs with hg
      · exact ih _ _ _ (kb_key_step_length_le _ _ _ _ _ h)
      · exact h

/-- C7: in every poll tick at most `KB_MAX_KEYS * 4` events are
recorded in the scratch sequence; once the scratch is at capacity a
further push leaves it exactly unchanged; and with a callback attached
the delivered events are exactly the recorded ones in emission order. -/
theorem C7_scratch_buffer_bounded :
    (∀ (ctl : keyboard_control_t) (rtArr : List kb_key_runtime_t) (dt : Nat),
        (keyboard_poll ctl rtArr dt).2.length ≤ KB_MAX_KEYS * 4) ∧
    (∀ (evts : List (keyboard_que_t × kb_event_t)) (node : keyboard_que_t)
        (e : kb_event_t),
        KB_MAX_KEYS * 4 ≤ evts.length → kb_push evts node e = evts) ∧
    (∀ (ctl : keyboard_control_t) (evts : List (keyboard_que_t × kb_event_t)),
        ctl.keyboard_cb_on_event = true → kb_deliver ctl evts = evts) := by
  refine ⟨?_, ?_, ?_⟩
  · intro ctl rtArr dt
    by_cases hdt : dt = 0
    · simp [keyboard_poll, hdt]
    · by_cases hb : ctl.backend_mode = KB_BACKEND_CUSTOM
      · cases hscan : ctl.keyboard_ops.scan_snapshot with
        | none => simp [keyboard_poll, hdt, hb, hscan]
        | some scan =>
            simp only [keyboard_poll, if_neg hdt, if_pos hb, hscan]
            split_ifs
            · simp
            · exact kb_poll_loop_length_le _ _ _ _ _ _ _ (by simp)
      · simp only [keyboard_poll, if_neg hdt, if_neg hb]
        exact kb_poll_loop_length_le _ _ _ _ _ _ _ (by simp)
  · intro evts node e h
    unfold kb_push
    rw [if_neg (by omega)]
  · intro ctl evts h
    simp [kb_deliver, h]

/-- Witness for C7: the bound on a concrete tick, a concrete push into
a full scratch buffer, and a concrete delivery. -/
theorem C7_scratch_buffer_bounded_witness :
    (keyboard_poll ctlNoCap [rtPressed] 10).2.length ≤ KB_MAX_KEYS * 4 ∧
    kb_push (List.replicate 64 (nodeK, .KB_EVT_PRESS)) nodeK .KB_EVT_RELEASE =
      List.replicate 64 (nodeK, .KB_EVT_PRESS) ∧
    kb_deliver (mkCtl1 nodeK 0) [(nodeK, .KB_EVT_PRESS)] =
      [(nodeK, .KB_EVT_PRESS)] := by
  refine ⟨C7_scratch_buffer_bounded.1 ctlNoCap [rtPressed] 10,
    C7_scratch_buffer_bounded.2.1 _ nodeK .KB_EVT_RELEASE (by decide),
    C7_scratch_buffer_bounded.2.2 (mkCtl1 nodeK 0) _ rfl⟩

/-! ## Theorems: debounce accumulator (C9) -/

/-- C9 counterexample: the debounce accumulator can exceed the
threshold.  With a 15 ms tick delta and a stable raw level, two polls
of a freshly initialised key leave the accumulator at 30 ms, strictly
above the 20 ms debounce threshold — so "it never exceeds the
threshold" fails; the code only stops incrementing once the threshold
has been reached. -/
theorem C9_debounce_overshoot_counterexample :
    ((kb_run1 nodeK 15 [0, 0] [kb_rt_zero]).1.getD 0 kb_rt_zero).debounce_ms
      = 30 ∧ KB_DEBOUNCE_MS < 30 := by decide

/-- The stabilisation section never touches the debounce accumulator. -/
lemma kb_step_stabilize_debounce (node : keyboard_que_t)
    (rt : kb_key_runtime_t) (evts : List (keyboard_que_t × kb_event_t)) :
    (kb_step_stabilize node rt evts).1.debounce_ms = rt.debounce_ms := by
  unfold kb_step_stabilize
  dsimp only
  split_ifs <;> rfl

/-- The gesture section never touches the debounce accumulator. -/
lemma kb_step_gesture_debounce (node : keyboard_que_t) (dt : Nat)
    (rt : kb_key_runtime_t) (evts : List (keyboard_que_t × kb_event_t)) :
    (kb_step_gesture node dt rt evts).1.debounce_ms = rt.debounce_ms := by
  unfold kb_step_gesture
  dsimp only
  split_ifs <;> rfl

/-- C9 (amended): across the whole per-key step (debounce plus all
gesture logic), the debounce accumulator is reset on a raw-sample
change, incremented by the tick delta (modulo `2^32`) only while
strictly below the debounce threshold, and once it has reached the
threshold it is never changed again until a raw change — it saturates
in the sense of not being incremented further, but it may overshoot
the threshold by up to one tick delta at the crossing step. -/
theorem C9_debounce_saturation (node : keyboard_que_t) (raw dt : Nat)
    (rt : kb_key_runtime_t) (evts : List (keyboard_que_t × kb_event_t)) :
    (KB_DEBOUNCE_MS ≤ rt.debounce_ms → raw = rt.raw_last →
      (kb_key_step node raw dt rt evts).1.debounce_ms = rt.debounce_ms) ∧
    (rt.debounce_ms < KB_DEBOUNCE_MS → raw = rt.raw_last →
      (kb_key_step node raw dt rt evts).1.debounce_ms =
        (rt.debounce_ms + dt) % U32) ∧
    (raw ≠ rt.raw_last →
      (kb_key_step node raw dt rt evts).1.debounce_ms = 0) := by
  have hkey : ∀ rt' : kb_key_runtime_t,
      (kb_key_step node raw dt rt' evts).1.debounce_ms =
        (kb_step_debounce raw dt rt').debounce_ms := by
    intro rt'
    unfold kb_key_step
    dsimp only
    rw [kb_step_gesture_debounce, kb_step_stabilize_debounce]
  refine ⟨?_, ?_, ?_⟩
  · intro h1 h2
    rw [hkey]
    unfold kb_step_debounce
    rw [if_neg (by simp [h2]), if_neg (by omega)]
  · intro h1 h2
    rw [hkey]
    unfold kb_step_debounce
    rw [if_neg (by simp [h2]), if_pos h1]
  · intro h1
    rw [hkey]
    unfold kb_step_debounce
    rw [if_pos h1]

/-- Witness for C9 (amended) at a concrete saturated record. -/
theorem C9_debounce_saturation_witness :
    (kb_key_step nodeK 0 10 (rtRel 0 20 0) []).1.debounce_ms = 20 ∧
    (kb_key_step nodeK 0 10 (rtRel 0 10 0) []).1.debounce_ms = 20 ∧
    (kb_key_step nodeK 1 10 (rtRel 0 20 0) []).1.debounce_ms = 0 := by
  refine ⟨(C9_debounce_saturation nodeK 0 10 (rtRel 0 20 0) []).1
      (by decide) (by decide), ?_, ?_⟩
  · have := (C9_debounce_saturation nodeK 0 10 (rtRel 0 10 0) []).2.1
      (by decide) (by decide)
    rw [this]; decide
  · exact (C9_debounce_saturation nodeK 1 10 (rtRel 0 20 0) []).2.2 (by decide)

/-! ## Theorems: click counter stays binary (C10) -/

/-- The debounce section never touches the click counter. -/
lemma kb_step_debounce_click (raw dt : Nat) (rt : kb_key_runtime_t) :
    (kb_step_debounce raw dt rt).click_count = rt.click_count := by
  unfold kb_step_debounce
  split_ifs <;> rfl

/-- The stabilisation section keeps the click counter at 0 or 1. -/
lemma kb_step_stabilize_click_le (node : keyboard_que_t)
    (rt : kb_key_runtime_t) (evts : List (keyboard_que_t × kb_event_t))
    (h : rt.click_count ≤ 1) :
    (kb_step_stabilize node rt evts).1.click_count ≤ 1 := by
  unfold kb_step_stabilize
  dsimp only
  split_ifs <;> dsimp only <;> omega

/-- The gesture section keeps the click counter at 0 or 1. -/
lemma kb_step_gesture_click_le (node : keyboard_que_t) (dt : Nat)
    (rt : kb_key_runtime_t) (evts : List (keyboard_que_t × kb_event_t))
    (h : rt.click_count ≤ 1) :
    (kb_step_gesture node dt rt evts).1.click_count ≤ 1 := by
  unfold kb_step_gesture
  dsimp only
  split_ifs <;> dsimp only <;> omega

/-- The per-key step keeps the click counter at 0 or 1. -/
lemma kb_key_step_click_le (node : keyboard_que_t) (raw dt : Nat)
    (rt : kb_key_runtime_t) (evts : List (keyboard_que_t × kb_event_t))
    (h : rt.click_count ≤ 1) :
    (kb_key_step node raw dt rt evts).1.click_count ≤ 1 := by
  unfold kb_key_step
  dsimp only
  refine kb_step_gesture_click_le _ _ _ _ ?_
  refine kb_step_stabilize_click_le _ _ _ ?_
  rw [kb_step_debounce_click]
  exact h

/-- The scan loop keeps every runtime slot's click counter at 0 or 1. -/
lemma kb_poll_loop_click_le (ctl : keyboard_control_t) (snapshot : Nat → Nat)
    (dt : Nat) (nodes : List keyboard_que_t) (idx : Nat)
    (rtArr : List kb_key_runtime_t) (evts : List (keyboard_que_t × kb_event_t))
    (h : ∀ rt ∈ rtArr, rt.click_count ≤ 1) :
    ∀ rt ∈ (kb_poll_loop ctl snapshot dt nodes idx rtArr evts).1,
      rt.click_count ≤ 1 := by
  induction nodes generalizing idx rtArr evts with
  | nil => exact h
  | cons node rest ih =>
      unfold kb_poll_loop
      split_ifs with hg
      · refine ih _ _ _ (fun rt hrt => ?_)
        rcases List.mem_or_eq_of_mem_set hrt with hin | heq
        · exact h rt hin
        · subst heq
          refine kb_key_step_click_le _ _ _ _ _ ?_
          rcases Nat.lt_or_ge idx rtArr.length with hlt | hge
          · rw [List.getD_eq_getElem rtArr kb_rt_zero hlt]
            exact h _ (List.getElem_mem hlt)
          · rw [List.getD_eq_default rtArr kb_rt_zero hge]
            exact Nat.zero_le 1
      · exact h

/-- C10: after initialisation every key's click counter is 0, and a
poll tick keeps every click counter at 0 or 1 — no operation ever
stores 2 or more. -/
theorem C10_click_count_binary :
    (∀ (ops : keyboard_ops_t) (cb : Bool)
        (r : keyboard_control_t × List kb_key_runtime_t),
        (keyboard_init ops cb).2 = some r →
        ∀ rt ∈ r.2, rt.click_count = 0) ∧
    (∀ (ctl : keyboard_control_t) (rtArr : List kb_key_runtime_t) (dt : Nat),
        (∀ rt ∈ rtArr, rt.click_count ≤ 1) →
        ∀ rt ∈ (keyboard_poll ctl rtArr dt).1, rt.click_count ≤ 1) := by
  constructor
  · intro ops cb r h rt hrt
    unfold keyboard_init at h
    split_ifs at h with hcap
    · rw [if_neg (by decide)] at h
      dsimp only at h
      simp only [Option.some.injEq] at h
      subst h
      simp only [List.mem_replicate] at hrt
      rw [hrt.2]
      rfl
  · intro ctl rtArr dt h
    by_cases hdt : dt = 0
    · simpa [keyboard_poll, hdt] using h
    · by_cases hb : ctl.backend_mode = KB_BACKEND_CUSTOM
      · cases hscan : ctl.keyboard_ops.scan_snapshot with
        | none => simpa [keyboard_poll, hdt, hb, hscan] using h
        | some scan =>
            simp only [keyboard_poll, if_neg hdt, if_pos hb, hscan]
            split_ifs
            · simpa using h
            · exact kb_poll_loop_click_le _ _ _ _ _ _ _ h
      · simp only [keyboard_poll, if_neg hdt, if_neg hb]
        exact kb_poll_loop_click_le _ _ _ _ _ _ _ h

/-- Witness for C10: a freshly initialised table and one concrete poll
preserve the binary click counter. -/
theorem C10_click_count_binary_witness :
    (∀ rt ∈ (List.replicate KB_MAX_KEYS kb_rt_zero : List kb_key_runtime_t),
        rt.click_count = 0) ∧
    (∀ rt ∈ (keyboard_poll ctlNoCap [rtPressed] 10).1, rt.click_count ≤ 1) := by
  constructor
  · exact C10_click_count_binary.1 (mkMatrixOps 0) false _ (by rfl)
  · exact C10_click_count_binary.2 ctlNoCap [rtPressed] 10 (by decide)

/-! ## Single-key run machinery -/

/-- A zero tick delta makes every poll of a run a no-op. -/
lemma kb_run1_zero_dt (node : keyboard_que_t) (levels : List Nat)
    (rtArr : List kb_key_runtime_t) :
    kb_run1 node 0 levels rtArr = (rtArr, []) := by
  induction levels with
  | nil => rfl
  | cons l ls ih => simp [kb_run1, keyboard_poll, ih]

/-- One poll of the single-key control block is exactly one per-key
step on the head runtime slot. -/
lemma keyboard_poll_one (node : keyboard_que_t) (l dt : Nat)
    (r : kb_key_runtime_t) (rest : List kb_key_runtime_t) (hdt : dt ≠ 0)
    (hl : l = 0 ∨ l = 1) :
    keyboard_poll (mkCtl1 node l) (r :: rest) dt =
      ((kb_key_step node l dt r []).1 :: rest,
       (kb_key_step node l dt r []).2) := by
  rcases hl with h | h <;> subst h <;>
    simp [keyboard_poll, hdt, mkCtl1, mkMatrixOps, kb_poll_loop, kb_read_raw,
      KB_BACKEND_CUSTOM, KB_BACKEND_MATRIX, KB_BACKEND_GPIO,
      KB_MATRIX_ACTIVE_LEVEL, KB_MAX_KEYS]

/-- A single-key run is the iteration of the per-key step on the head
runtime slot. -/
lemma kb_run1_eq_steps (node : keyboard_que_t) (dt : Nat) (levels : List Nat)
    (r : kb_key_runtime_t) (rest : List kb_key_runtime_t) (hdt : dt ≠ 0)
    (hlev : ∀ l ∈ levels, l = 0 ∨ l = 1) :
    kb_run1 node dt levels (r :: rest) =
      ((kb_steps node dt levels r).1 :: rest,
       (kb_steps node dt levels r).2) := by
  induction levels generalizing r with
  | nil => rfl
  | cons l ls ih =>
      have hl : l = 0 ∨ l = 1 := hlev l (by simp)
      have hls : ∀ x ∈ ls, x = 0 ∨ x = 1 := fun x hx => hlev x (by simp [hx])
      simp only [kb_run1, kb_steps]
      rw [keyboard_poll_one node l dt r rest hdt hl]
      rw [ih _ hls]

/-- Iterating the per-key step over a concatenation. -/
lemma kb_steps_append (node : keyboard_que_t) (dt : Nat) (l1 l2 : List Nat)
    (rt : kb_key_runtime_t) :
    kb_steps node dt (l1 ++ l2) rt =
      ((kb_steps node dt l2 (kb_steps node dt l1 rt).1).1,
       (kb_steps node dt l1 rt).2 ++
         (kb_steps node dt l2 (kb_steps node dt l1 rt).1).2) := by
  induction l1 generalizing rt with
  | nil => simp [kb_steps]
  | cons l ls ih => simp [kb_steps, ih, List.append_assoc]

/-- Event counting distributes over concatenation. -/
lemma kb_count_append (e : kb_event_t) (l1 l2 : List (keyboard_que_t × kb_event_t)) :
    kb_count e (l1 ++ l2) = kb_count e l1 + kb_count e l2 :=
  List.countP_append _ _ _

/-! ## Per-phase evaluation lemmas -/

/-- Debounce with an unchanged raw sample below the threshold. -/
lemma kb_step_debounce_same_lt (raw dt : Nat) (rt : kb_key_runtime_t)
    (h : raw = rt.raw_last) (hlt : rt.debounce_ms < KB_DEBOUNCE_MS) :
    kb_step_debounce raw dt rt =
      { rt with debounce_ms := (rt.debounce_ms + dt) % U32 } := by
  unfold kb_step_debounce
  rw [if_neg (by simp [h]), if_pos hlt]

/-- Debounce with an unchanged raw sample at or past the threshold. -/
lemma kb_step_debounce_same_ge (raw dt : Nat) (rt : kb_key_runtime_t)
    (h : raw = rt.raw_last) (hge : KB_DEBOUNCE_MS ≤ rt.debounce_ms) :
    kb_step_debounce raw dt rt = rt := by
  unfold kb_step_debounce
  rw [if_neg (by simp [h]), if_neg (by omega)]

/-- Debounce with a changed raw sample. -/
lemma kb_step_debounce_change (raw dt : Nat) (rt : kb_key_runtime_t)
    (h : raw ≠ rt.raw_last) :
    kb_step_debounce raw dt rt =
      { rt with raw_last := raw, debounce_ms := 0 } := by
  unfold kb_step_debounce
  rw [if_pos h]

/-- Debounce always leaves the raw-sample field at the new sample. -/
lemma kb_step_debounce_raw_last (raw dt : Nat) (rt : kb_key_runtime_t) :
    (kb_step_debounce raw dt rt).raw_last = raw := by
  unfold kb_step_debounce
  split_ifs with h h2
  · rfl
  all_goals
    push_neg at h
    exact h.symm

/-- Debounce never touches the stable level. -/
lemma kb_step_debounce_stable (raw dt : Nat) (rt : kb_key_runtime_t) :
    (kb_step_debounce raw dt rt).stable = rt.stable := by
  unfold kb_step_debounce
  split_ifs <;> rfl

/-- Stabilisation does nothing unless debounced and differing. -/
lemma kb_step_stabilize_skip (node : keyboard_que_t) (rt : kb_key_runtime_t)
    (evts : List (keyboard_que_t × kb_event_t))
    (h : ¬(KB_DEBOUNCE_MS ≤ rt.debounce_ms ∧ rt.stable ≠ rt.raw_last)) :
    kb_step_stabilize node rt evts = (rt, evts) := by
  unfold kb_step_stabilize
  rw [if_neg h]

/-- Stabilisation flip to pressed: PRESS recorded, press/repeat
accumulators and the long-press flag cleared. -/
lemma kb_step_stabilize_press (node : keyboard_que_t) (rt : kb_key_runtime_t)
    (evts : List (keyboard_que_t × kb_event_t))
    (h1 : KB_DEBOUNCE_MS ≤ rt.debounce_ms) (h2 : rt.stable ≠ rt.raw_last)
    (h3 : rt.raw_last ≠ 0) :
    kb_step_stabilize node rt evts =
      ({ rt with stable := rt.raw_last,
                 press_ms := 0, repeat_ms := 0, long_sent := 0 },
       kb_push evts node .KB_EVT_PRESS) := by
  unfold kb_step_stabilize
  rw [if_pos ⟨h1, h2⟩, if_pos h3]

/-- Stabilisation flip to released with no long press and no pending
click: RELEASE recorded and one click is marked pending. -/
lemma kb_step_stabilize_release_first (node : keyboard_que_t)
    (rt : kb_key_runtime_t) (evts : List (keyboard_que_t × kb_event_t))
    (h1 : KB_DEBOUNCE_MS ≤ rt.debounce_ms) (h2 : rt.stable ≠ rt.raw_last)
    (h3 : rt.raw_last = 0) (h4 : rt.long_sent = 0) (h5 : rt.click_count = 0) :
    kb_step_stabilize node rt evts =
      ({ rt with stable := rt.raw_last, click_count := 1, click_wait_ms := 0,
                 press_ms := 0, repeat_ms := 0, long_sent := 0 },
       kb_push evts node .KB_EVT_RELEASE) := by
  unfold kb_step_stabilize
  rw [if_pos ⟨h1, h2⟩, if_neg (by simp [h3]), if_neg (by simp [h4]),
    if_pos h5]

/-- Stabilisation flip to released with no long press, one pending
click still inside the window: RELEASE then DOUBLE_CLICK recorded. -/
lemma kb_step_stabilize_release_double (node : keyboard_que_t)
    (rt : kb_key_runtime_t) (evts : List (keyboard_que_t × kb_event_t))
    (h1 : KB_DEBOUNCE_MS ≤ rt.debounce_ms) (h2 : rt.stable ≠ rt.raw_last)
    (h3 : rt.raw_last = 0) (h4 : rt.long_sent = 0) (h5 : rt.click_count = 1)
    (h6 : rt.click_wait_ms ≤ KB_DOUBLE_CLICK_MS) :
    kb_step_stabilize node rt evts =
      ({ rt with stable := rt.raw_last, click_count := 0, click_wait_ms := 0,
                 press_ms := 0, repeat_ms := 0, long_sent := 0 },
       kb_push (kb_push evts node .KB_EVT_RELEASE) node .KB_EVT_DOUBLE_CLICK) := by
  unfold kb_step_stabilize
  rw [if_pos ⟨h1, h2⟩, if_neg (by simp [h3]), if_neg (by simp [h4]),
    if_neg (by omega), if_pos ⟨h5, h6⟩]

/-- Gesture section with a stably released level and no pending click:
nothing happens. -/
lemma kb_step_gesture_idle (node : keyboard_que_t) (dt : Nat)
    (rt : kb_key_runtime_t) (evts : List (keyboard_que_t × kb_event_t))
    (hs : rt.stable = 0) (hc : rt.click_count ≠ 1) :
    kb_step_gesture node dt rt evts = (rt, evts) := by
  unfold kb_step_gesture
  rw [if_neg (by simp [hs]), if_neg hc]

/-- Gesture section with a pending click whose wait stays inside the
window: the wait accumulates, no event. -/
lemma kb_step_gesture_wait (node : keyboard_que_t) (dt : Nat)
    (rt : kb_key_runtime_t) (evts : List (keyboard_que_t × kb_event_t))
    (hs : rt.stable = 0) (hc : rt.click_count = 1)
    (hlt : (rt.click_wait_ms + dt) % U32 < KB_DOUBLE_CLICK_MS) :
    kb_step_gesture node dt rt evts =
      ({ rt with click_wait_ms := (rt.click_wait_ms + dt) % U32 }, evts) := by
  unfold kb_step_gesture
  rw [if_neg (by simp [hs]), if_pos hc]
  dsimp only
  rw [if_neg (by omega)]

/-- Gesture section with a pending click whose wait reaches the
window: CLICK is recorded and the pending state cleared. -/
lemma kb_step_gesture_click (node : keyboard_que_t) (dt : Nat)
    (rt : kb_key_runtime_t) (evts : List (keyboard_que_t × kb_event_t))
    (hs : rt.stable = 0) (hc : rt.click_count = 1)
    (hge : KB_DOUBLE_CLICK_MS ≤ (rt.click_wait_ms + dt) % U32) :
    kb_step_gesture node dt rt evts =
      ({ rt with click_count := 0, click_wait_ms := 0 },
       kb_push evts node .KB_EVT_CLICK) := by
  unfold kb_step_gesture
  rw [if_neg (by simp [hs]), if_pos hc]
  dsimp only
  rw [if_pos hge]

/-- Gesture section while stably pressed, no long-press firing and
press time still below the repeat-start threshold. -/
lemma kb_step_gesture_press_quiet (node : keyboard_que_t) (dt : Nat)
    (rt : kb_key_runtime_t) (evts : List (keyboard_que_t × kb_event_t))
    (hs : rt.stable ≠ 0)
    (hl : ¬(rt.long_sent = 0 ∧ KB_LONGPRESS_MS ≤ (rt.press_ms + dt) % U32))
    (hr : (rt.press_ms + dt) % U32 < KB_REPEAT_START_MS) :
    kb_step_gesture node dt rt evts =
      ({ rt with press_ms := (rt.press_ms + dt) % U32 }, evts) := by
  unfold kb_step_gesture
  rw [if_pos hs]
  dsimp only
  rw [if_neg hl]
  dsimp only
  rw [if_neg (by omega)]

/-- Gesture section while stably pressed, no long-press firing, repeat
timer running but below the repeat period. -/
lemma kb_step_gesture_press_reptick (node : keyboard_que_t) (dt : Nat)
    (rt : kb_key_runtime_t) (evts : List (keyboard_que_t × kb_event_t))
    (hs : rt.stable ≠ 0)
    (hl : ¬(rt.long_sent = 0 ∧ KB_LONGPRESS_MS ≤ (rt.press_ms + dt) % U32))
    (hr : KB_REPEAT_START_MS ≤ (rt.press_ms + dt) % U32)
    (hp : (rt.repeat_ms + dt) % U32 < KB_REPEAT_PERIOD_MS) :
    kb_step_gesture node dt rt evts =
      ({ rt with press_ms := (rt.press_ms + dt) % U32,
                 repeat_ms := (rt.repeat_ms + dt) % U32 }, evts) := by
  unfold kb_step_gesture
  rw [if_pos hs]
  dsimp only
  rw [if_neg hl]
  dsimp only
  rw [if_pos hr]
  rw [if_neg (by omega)]

/-- Gesture section while stably pressed, no long-press firing, repeat
timer reaching the period: REPEAT recorded and the timer reset. -/
lemma kb_step_gesture_press_repeat (node : keyboard_que_t) (dt : Nat)
    (rt : kb_key_runtime_t) (evts : List (keyboard_que_t × kb_event_t))
    (hs : rt.stable ≠ 0)
    (hl : ¬(rt.long_sent = 0 ∧ KB_LONGPRESS_MS ≤ (rt.press_ms + dt) % U32))
    (hr : KB_REPEAT_START_MS ≤ (rt.press_ms + dt) % U32)
    (hp : KB_REPEAT_PERIOD_MS ≤ (rt.repeat_ms + dt) % U32) :
    kb_step_gesture node dt rt evts =
      ({ rt with press_ms := (rt.press_ms + dt) % U32, repeat_ms := 0 },
       kb_push evts node .KB_EVT_REPEAT) := by
  unfold kb_step_gesture
  rw [if_pos hs]
  dsimp only
  rw [if_neg hl]
  dsimp only
  rw [if_pos hr]
  rw [if_pos hp]

/-- Gesture section while stably pressed at the long-press firing
tick, repeat timer running but below the period: LONGPRESS recorded. -/
lemma kb_step_gesture_press_long (node : keyboard_que_t) (dt : Nat)
    (rt : kb_key_runtime_t) (evts : List (keyboard_que_t × kb_event_t))
    (hs : rt.stable ≠ 0)
    (hl : rt.long_sent = 0 ∧ KB_LONGPRESS_MS ≤ (rt.press_ms + dt) % U32)
    (hr : KB_REPEAT_START_MS ≤ (rt.press_ms + dt) % U32)
    (hp : (rt.repeat_ms + dt) % U32 < KB_REPEAT_PERIOD_MS) :
    kb_step_gesture node dt rt evts =
      ({ rt with press_ms := (rt.press_ms + dt) % U32, long_sent := 1,
                 repeat_ms := (rt.repeat_ms + dt) % U32 },
       kb_push evts node .KB_EVT_LONGPRESS) := by
  unfold kb_step_gesture
  rw [if_pos hs]
  dsimp only
  rw [if_pos hl]
  dsimp only
  rw [if_pos hr]
  rw [if_neg (by omega)]

/-- Counting ignores a push of a different event kind. -/
lemma kb_count_push_other (e e' : kb_event_t)
    (evts : List (keyboard_que_t × kb_event_t)) (node : keyboard_que_t)
    (h : e' ≠ e) :
    kb_count e (kb_push evts node e') = kb_count e evts := by
  unfold kb_push
  split_ifs
  · simp [kb_count, List.countP_append, List.countP_cons, h]
  · rfl

/-- Counting sees a push of the same event kind while below capacity. -/
lemma kb_count_push_self (e : kb_event_t)
    (evts : List (keyboard_que_t × kb_event_t)) (node : keyboard_que_t)
    (h : evts.length < KB_MAX_KEYS * 4) :
    kb_count e (kb_push evts node e) = kb_count e evts + 1 := by
  unfold kb_push
  rw [if_pos h]
  simp [kb_count, List.countP_append, List.countP_cons]

/-- While stably pressed, the gesture section records no PRESS and
preserves the raw and stable levels. -/
lemma kb_step_gesture_press_counts (node : keyboard_que_t) (dt : Nat)
    (rt : kb_key_runtime_t) (evts : List (keyboard_que_t × kb_event_t))
    (hs : rt.stable ≠ 0) :
    kb_count .KB_EVT_PRESS (kb_step_gesture node dt rt evts).2 =
      kb_count .KB_EVT_PRESS evts ∧
    (kb_step_gesture node dt rt evts).1.raw_last = rt.raw_last ∧
    (kb_step_gesture node dt rt evts).1.stable = rt.stable := by
  unfold kb_step_gesture
  rw [if_pos hs]
  dsimp only
  split_ifs <;>
    refine ⟨?_, rfl, rfl⟩ <;>
    simp [kb_count_push_other]

/-! ## Theorems: debounce filtering (C1) -/

/-- Tick at raw level 1 while still debouncing, below the threshold
even after the increment: the accumulator just grows. -/
lemma c1_step_quiet (node : keyboard_que_t) (dt d : Nat)
    (h1 : d < KB_DEBOUNCE_MS) (h2 : d + dt < KB_DEBOUNCE_MS) :
    kb_key_step node 1 dt ⟨1, 0, 0, 0, d, 0, 0, 0⟩ [] =
      (⟨1, 0, 0, 0, d + dt, 0, 0, 0⟩, []) := by
  have hU : d + dt < U32 := by
    simp only [KB_DEBOUNCE_MS] at h2
    simp only [U32]
    omega
  unfold kb_key_step
  rw [kb_step_debounce_same_lt 1 dt _ rfl h1]
  dsimp only
  rw [Nat.mod_eq_of_lt hU]
  rw [kb_step_stabilize_skip _ _ _ (fun hc => absurd hc.1 (by dsimp only; omega))]
  dsimp only
  rw [kb_step_gesture_idle _ _ _ _ rfl (by dsimp only; omega)]

/-- Tick at raw level 1 whose increment reaches the threshold: the
stable level flips and exactly one PRESS is recorded (plus possibly
hold events, none of which are PRESS). -/
lemma c1_step_flip (node : keyboard_que_t) (dt d : Nat)
    (h1 : d < KB_DEBOUNCE_MS) (h2 : KB_DEBOUNCE_MS ≤ d + dt)
    (hU : d + dt < U32) :
    kb_count .KB_EVT_PRESS (kb_key_step node 1 dt ⟨1, 0, 0, 0, d, 0, 0, 0⟩ []).2 = 1 ∧
    (kb_key_step node 1 dt ⟨1, 0, 0, 0, d, 0, 0, 0⟩ []).1.raw_last = 1 ∧
    (kb_key_step node 1 dt ⟨1, 0, 0, 0, d, 0, 0, 0⟩ []).1.stable = 1 := by
  unfold kb_key_step
  rw [kb_step_debounce_same_lt 1 dt _ rfl h1]
  dsimp only
  rw [Nat.mod_eq_of_lt hU]
  rw [kb_step_stabilize_press _ _ _ (by dsimp only; omega)
    (by dsimp only; omega) (by dsimp only; omega)]
  dsimp only
  obtain ⟨hc, hr, hst⟩ := kb_step_gesture_press_counts node dt
    ⟨1, 1, 0, 0, d + dt, 0, 0, 0⟩ (kb_push [] node .KB_EVT_PRESS)
    (by dsimp only; omega)
  refine ⟨?_, by rw [hr], by rw [hst]⟩
  rw [hc]
  simp [kb_push, kb_count, KB_MAX_KEYS, List.countP_cons]

/-- Tick at raw level 1 from a stably pressed record: no PRESS is ever
recorded again and the record stays stably pressed. -/
lemma c1_step_hold_nopress (node : keyboard_que_t) (dt : Nat)
    (rt : kb_key_runtime_t) (h1 : rt.raw_last = 1) (h2 : rt.stable = 1) :
    kb_count .KB_EVT_PRESS (kb_key_step node 1 dt rt []).2 = 0 ∧
    (kb_key_step node 1 dt rt []).1.raw_last = 1 ∧
    (kb_key_step node 1 dt rt []).1.stable = 1 := by
  unfold kb_key_step
  rw [kb_step_stabilize_skip _ _ _ (fun hc => hc.2 (by
    rw [kb_step_debounce_stable, kb_step_debounce_raw_last, h2]))]
  dsimp only
  obtain ⟨hcnt, hr, hst⟩ := kb_step_gesture_press_counts node dt
    (kb_step_debounce 1 dt rt) []
    (by rw [kb_step_debounce_stable, h2]; omega)
  refine ⟨by rw [hcnt]; rfl, ?_, ?_⟩
  · rw [hr, kb_step_debounce_raw_last]
  · rw [hst, kb_step_debounce_stable, h2]

/-- Tick at raw level 0 from a settled idle record: nothing happens. -/
lemma c1_step_idle0 (node : keyboard_que_t) (dt : Nat)
    (rt : kb_key_runtime_t) (h1 : rt.raw_last = 0) (h2 : rt.stable = 0)
    (h3 : rt.click_count = 0) :
    (kb_key_step node 0 dt rt []).2 = [] ∧
    (kb_key_step node 0 dt rt []).1.raw_last = 0 ∧
    (kb_key_step node 0 dt rt []).1.stable = 0 ∧
    (kb_key_step node 0 dt rt []).1.click_count = 0 := by
  unfold kb_key_step
  rw [kb_step_stabilize_skip _ _ _ (fun hc => hc.2 (by
    rw [kb_step_debounce_stable, kb_step_debounce_raw_last, h2]))]
  dsimp only
  rw [kb_step_gesture_idle _ _ _ _ (by rw [kb_step_debounce_stable, h2])
    (by rw [kb_step_debounce_click, h3]; omega)]
  refine ⟨rfl, ?_, ?_, ?_⟩
  · rw [kb_step_debounce_raw_last]
  · rw [kb_step_debounce_stable, h2]
  · rw [kb_step_debounce_click, h3]

/-- Tick at raw level 0 reverting a still-debouncing raw 1: back to the
zeroed record, with no events. -/
lemma c1_step_revert (node : keyboard_que_t) (dt d : Nat) :
    kb_key_step node 0 dt ⟨1, 0, 0, 0, d, 0, 0, 0⟩ [] = (kb_rt_zero, []) := by
  unfold kb_key_step
  rw [kb_step_debounce_change 0 dt _ (by dsimp only; omega)]
  dsimp only
  rw [kb_step_stabilize_skip _ _ _ (fun hc => by
    have := hc.1
    dsimp only at this
    simp [KB_DEBOUNCE_MS] at this)]
  dsimp only
  rw [kb_step_gesture_idle _ _ _ _ rfl (by dsimp only; omega)]
  rfl

/-- First tick at raw level 1 from the zeroed record: the raw change is
recorded and the debounce accumulator reset; no events. -/
lemma c1_step_first (node : keyboard_que_t) (dt : Nat) :
    kb_key_step node 1 dt kb_rt_zero [] = (⟨1, 0, 0, 0, 0, 0, 0, 0⟩, []) := by
  unfold kb_key_step kb_rt_zero
  rw [kb_step_debounce_change 1 dt _ (by dsimp only; omega)]
  dsimp only
  rw [kb_step_stabilize_skip _ _ _ (fun hc => by
    have := hc.1
    dsimp only at this
    simp [KB_DEBOUNCE_MS] at this)]
  dsimp only
  rw [kb_step_gesture_idle _ _ _ _ rfl (by dsimp only; omega)]

/-- Raw level 1 held while the accumulated span stays below the
threshold: the accumulator grows by `dt` per tick, no events. -/
lemma c1_steps_stay (node : keyboard_que_t) (dt : Nat) (k : Nat) (d : Nat)
    (h : d + k * dt < KB_DEBOUNCE_MS) :
    kb_steps node dt (List.replicate k 1) ⟨1, 0, 0, 0, d, 0, 0, 0⟩ =
      (⟨1, 0, 0, 0, d + k * dt, 0, 0, 0⟩, []) := by
  induction k generalizing d with
  | zero => simp [kb_steps]
  | succ n ih =>
      have h1 : d < KB_DEBOUNCE_MS := by
        simp only [KB_DEBOUNCE_MS] at h ⊢; omega
      have h2 : d + dt < KB_DEBOUNCE_MS := by
        simp only [KB_DEBOUNCE_MS] at h ⊢
        have : dt ≤ (n + 1) * dt := Nat.le_mul_of_pos_left dt (by omega)
        omega
      rw [List.replicate_succ]
      simp only [kb_steps]
      rw [c1_step_quiet node dt d h1 h2]
      have h3 : (d + dt) + n * dt < KB_DEBOUNCE_MS := by
        have : d + (n + 1) * dt = d + dt + n * dt := by ring
        omega
      rw [ih (d + dt) h3]
      simp only [List.nil_append]
      have : d + dt + n * dt = d + (n + 1) * dt := by ring
      rw [this]

/-- Raw level 0 held from a settled idle record: no events ever, and
the record stays settled idle. -/
lemma c1_steps_idle (node : keyboard_que_t) (dt : Nat) (k : Nat)
    (rt : kb_key_runtime_t) (h1 : rt.raw_last = 0) (h2 : rt.stable = 0)
    (h3 : rt.click_count = 0) :
    (kb_steps node dt (List.replicate k 0) rt).2 = [] ∧
    (kb_steps node dt (List.replicate k 0) rt).1.raw_last = 0 ∧
    (kb_steps node dt (List.replicate k 0) rt).1.stable = 0 ∧
    (kb_steps node dt (List.replicate k 0) rt).1.click_count = 0 := by
  induction k generalizing rt with
  | zero => exact ⟨rfl, h1, h2, h3⟩
  | succ n ih =>
      rw [List.replicate_succ]
      simp only [kb_steps]
      obtain ⟨e0, p1, p2, p3⟩ := c1_step_idle0 node dt rt h1 h2 h3
      have := ih (kb_key_step node 0 dt rt []).1 p1 p2 p3
      simp only [e0, List.nil_append]
      exact this

/-- Raw level 1 held from a stably pressed record: no further PRESS. -/
lemma c1_steps_hold_nopress (node : keyboard_que_t) (dt : Nat) (k : Nat)
    (rt : kb_key_runtime_t) (h1 : rt.raw_last = 1) (h2 : rt.stable = 1) :
    kb_count .KB_EVT_PRESS (kb_steps node dt (List.replicate k 1) rt).2 = 0 ∧
    (kb_steps node dt (List.replicate k 1) rt).1.raw_last = 1 ∧
    (kb_steps node dt (List.replicate k 1) rt).1.stable = 1 := by
  induction k generalizing rt with
  | zero => exact ⟨rfl, h1, h2⟩
  | succ n ih =>
      rw [List.replicate_succ]
      simp only [kb_steps]
      obtain ⟨e0, p1, p2⟩ := c1_step_hold_nopress node dt rt h1 h2
      obtain ⟨f0, q1, q2⟩ := ih (kb_key_step node 1 dt rt []).1 p1 p2
      refine ⟨?_, q1, q2⟩
      rw [kb_count_append, e0, f0]

/-- Raw level 1 held from a debouncing record: exactly one PRESS is
recorded over the whole run iff the accumulated span reaches the
debounce threshold. -/
lemma c1_steps_press_count (node : keyboard_que_t) (dt : Nat) (m : Nat)
    (d : Nat) (hd : d < KB_DEBOUNCE_MS) (hdt : dt < U32) (hsum : d + dt < U32) :
    kb_count .KB_EVT_PRESS
        (kb_steps node dt (List.replicate m 1) ⟨1, 0, 0, 0, d, 0, 0, 0⟩).2 =
      if KB_DEBOUNCE_MS ≤ d + m * dt then 1 else 0 := by
  induction m generalizing d with
  | zero =>
      rw [if_neg (by omega)]
      rfl
  | succ n ih =>
      rw [List.replicate_succ]
      simp only [kb_steps]
      by_cases hflip : KB_DEBOUNCE_MS ≤ d + dt
      · obtain ⟨e1, p1, p2⟩ := c1_step_flip node dt d hd hflip hsum
        obtain ⟨f0, _, _⟩ := c1_steps_hold_nopress node dt n _ p1 p2
        rw [kb_count_append, e1, f0]
        rw [if_pos ?_]
        have : dt ≤ (n + 1) * dt := Nat.le_mul_of_pos_left dt (by omega)
        omega
      · push_neg at hflip
        rw [c1_step_quiet node dt d hd hflip]
        have hd' : d + dt < KB_DEBOUNCE_MS := hflip
        have hsum' : (d + dt) + dt < U32 := by
          simp only [KB_DEBOUNCE_MS] at hd'
          simp only [U32] at hdt hsum ⊢
          omega
        have := ih (d + dt) hd' hsum'
        simp only [List.nil_append]
        rw [this]
        have harith : d + dt + n * dt = d + (n + 1) * dt := by ring
        rw [harith]

/-- C1: with a fixed per-tick delta `dt` (a `uint32`), a raw change to
level 1 observed over `m` consecutive samples — an observed stable span
of `(m-1)*dt` — and then reverting to level 0 records no event at all
while the span is below the debounce threshold; and when the observed
span reaches the threshold, exactly one PRESS is recorded over the
pressed run. -/
theorem C1_debounce_filtering (node : keyboard_que_t) (dt m r : Nat)
    (hdt : dt < U32) :
    ((m - 1) * dt < KB_DEBOUNCE_MS →
      (kb_run1 node dt (List.replicate m 1 ++ List.replicate r 0)
        [kb_rt_zero]).2 = []) ∧
    (KB_DEBOUNCE_MS ≤ (m - 1) * dt →
      kb_count .KB_EVT_PRESS
        (kb_run1 node dt (List.replicate m 1) [kb_rt_zero]).2 = 1) := by
  constructor
  · intro hspan
    by_cases hdt0 : dt = 0
    · subst hdt0
      rw [kb_run1_zero_dt]
    · have hlev : ∀ l ∈ List.replicate m 1 ++ List.replicate r 0, l = 0 ∨ l = 1 := by
        intro l hl
        rcases List.mem_append.mp hl with h | h
        · right; exact List.eq_of_mem_replicate h
        · left; exact List.eq_of_mem_replicate h
      rw [kb_run1_eq_steps node dt _ kb_rt_zero [] hdt0 hlev]
      rw [kb_steps_append]
      cases m with
      | zero =>
          simp only [List.replicate_zero, kb_steps, List.nil_append]
          exact (c1_steps_idle node dt r kb_rt_zero rfl rfl rfl).1
      | succ n =>
          rw [List.replicate_succ]
          simp only [kb_steps]
          rw [c1_step_first node dt]
          have hn : (0 : Nat) + n * dt < KB_DEBOUNCE_MS := by
            simpa using hspan
          rw [c1_steps_stay node dt n 0 hn]
          simp only [List.nil_append, Nat.zero_add]
          cases r with
          | zero => rfl
          | succ q =>
              rw [List.replicate_succ]
              simp only [kb_steps]
              rw [c1_step_revert node dt (n * dt)]
              have := c1_steps_idle node dt q kb_rt_zero rfl rfl rfl
              simp only [this.1, List.nil_append]
  · intro hspan
    have hm : 2 ≤ m := by
      by_contra hc
      push_neg at hc
      interval_cases m <;> simp_all [KB_DEBOUNCE_MS]
    have hdt0 : dt ≠ 0 := by
      intro hc
      subst hc
      simp [KB_DEBOUNCE_MS] at hspan
    have hlev : ∀ l ∈ List.replicate m 1, l = 0 ∨ l = 1 := by
      intro l hl
      right; exact List.eq_of_mem_replicate hl
    rw [kb_run1_eq_steps node dt _ kb_rt_zero [] hdt0 hlev]
    obtain ⟨n, rfl⟩ : ∃ n, m = n + 1 := ⟨m - 1, by omega⟩
    rw [List.replicate_succ]
    simp only [kb_steps]
    rw [c1_step_first node dt]
    rw [kb_count_append]
    have hcount := c1_steps_press_count node dt n 0 (by simp [KB_DEBOUNCE_MS])
      hdt (by simpa using hdt)
    rw [hcount]
    have : KB_DEBOUNCE_MS ≤ 0 + n * dt := by
      simpa using hspan
    rw [if_pos this]
    rfl

/-- Witness for C1: with a 10 ms delta, a 2-sample glitch (observed
span 10 ms < 20 ms) then reverting records nothing; a 3-sample hold
(observed span 20 ms) records exactly one PRESS. -/
theorem C1_debounce_filtering_witness :
    ((kb_run1 nodeK 10 (List.replicate 2 1 ++ List.replicate 5 0)
        [kb_rt_zero]).2 = []) ∧
    (kb_count .KB_EVT_PRESS
        (kb_run1 nodeK 10 (List.replicate 3 1) [kb_rt_zero]).2 = 1) :=
  ⟨(C1_debounce_filtering nodeK 10 2 5 (by decide)).1 (by decide),
   (C1_debounce_filtering nodeK 10 3 0 (by decide)).2 (by decide)⟩

/-! ## Theorems: long press and repeat (C2) -/

/-- On a steadily pressed key (raw and stable both 1, debounced) the
per-key step is just the gesture section. -/
lemma kb_key_step_pressed (node : keyboard_que_t) (dt : Nat)
    (rt : kb_key_runtime_t) (evts : List (keyboard_que_t × kb_event_t))
    (h1 : rt.raw_last = 1) (h2 : rt.stable = 1)
    (h3 : KB_DEBOUNCE_MS ≤ rt.debounce_ms) :
    kb_key_step node 1 dt rt evts = kb_step_gesture node dt rt evts := by
  unfold kb_key_step
  rw [kb_step_debounce_same_ge 1 dt _ h1.symm h3]
  rw [kb_step_stabilize_skip _ _ _ (fun hc => hc.2 (by rw [h2, h1]))]

/-- On a steadily released key (raw and stable both 0, debounced) the
per-key step is just the gesture section. -/
lemma kb_key_step_released (node : keyboard_que_t) (dt : Nat)
    (rt : kb_key_runtime_t) (evts : List (keyboard_que_t × kb_event_t))
    (h1 : rt.raw_last = 0) (h2 : rt.stable = 0)
    (h3 : KB_DEBOUNCE_MS ≤ rt.debounce_ms) :
    kb_key_step node 0 dt rt evts = kb_step_gesture node dt rt evts := by
  unfold kb_key_step
  rw [kb_step_debounce_same_ge 0 dt _ h1.symm h3]
  rw [kb_step_stabilize_skip _ _ _ (fun hc => hc.2 (by rw [h2, h1]))]

/-- One 10 ms tick on the held-press state: press time advances one
tick, LONGPRESS fires exactly at the crossing tick `t+1 = 80`, REPEAT
fires exactly at the ticks `t+1 = 49 + 8j` past the repeat start. -/
lemma c2_step_hold (node : keyboard_que_t) (t cc w : Nat) (ht : 1 ≤ t)
    (hb : 10 * t + 10 < U32) :
    kb_key_step node 1 10 (rtHold t cc w) [] =
      (rtHold (t + 1) cc w,
       (if t + 1 = 80 then [(node, .KB_EVT_LONGPRESS)] else []) ++
       (if 57 ≤ t + 1 ∧ (t + 1 - 49) % 8 = 0 then [(node, .KB_EVT_REPEAT)]
        else [])) := by
  have hrepb : (if 50 ≤ t then 10 * ((t - 49) % 8) else 0) + 10 < U32 := by
    have h8 : (t - 49) % 8 < 8 := Nat.mod_lt _ (by omega)
    simp only [U32]
    split_ifs <;> omega
  have hstable : (rtHold t cc w).stable ≠ 0 := by simp [rtHold]
  have hpress : ((rtHold t cc w).press_ms + 10) % U32 = 10 * t + 10 := by
    simp only [rtHold]
    exact Nat.mod_eq_of_lt hb
  have hrep : ((rtHold t cc w).repeat_ms + 10) % U32 =
      (if 50 ≤ t then 10 * ((t - 49) % 8) else 0) + 10 := by
    simp only [rtHold]
    exact Nat.mod_eq_of_lt hrepb
  have hls : (rtHold t cc w).long_sent = (if 80 ≤ t then 1 else 0) := by
    simp only [rtHold]
  rw [kb_key_step_pressed node 10 _ [] (by simp [rtHold]) (by simp [rtHold])
    (by simp [rtHold, KB_DEBOUNCE_MS])]
  by_cases hA : t = 79
  · rw [kb_step_gesture_press_long node 10 _ [] hstable
      ⟨by rw [hls, hA]; norm_num,
       by rw [hpress, hA]; norm_num [KB_LONGPRESS_MS]⟩
      (by rw [hpress, hA]; norm_num [KB_REPEAT_START_MS])
      (by rw [hrep, hA]; norm_num [KB_REPEAT_PERIOD_MS])]
    rw [hpress, hrep]
    refine Prod.ext ?_ ?_
    · simp only [rtHold, hA]
      norm_num
    · subst hA
      norm_num [kb_push, KB_MAX_KEYS]
  · by_cases hB : t + 1 < 50
    · rw [kb_step_gesture_press_quiet node 10 _ [] hstable
        (by rw [hpress]
            rintro ⟨-, hle⟩
            simp only [KB_LONGPRESS_MS] at hle
            omega)
        (by rw [hpress]; simp only [KB_REPEAT_START_MS]; omega)]
      rw [hpress]
      refine Prod.ext ?_ ?_
      · simp only [rtHold]
        split_ifs <;>
          simp only [kb_key_runtime_t.mk.injEq, true_and, and_true] <;> omega
      · split_ifs <;> first | rfl | (exfalso; omega)
    · push_neg at hB
      have hlneg : ¬((rtHold t cc w).long_sent = 0 ∧
          KB_LONGPRESS_MS ≤ ((rtHold t cc w).press_ms + 10) % U32) := by
        rw [hls, hpress]
        rintro ⟨h0, hle⟩
        simp only [KB_LONGPRESS_MS] at hle
        split_ifs at h0 with h80
        all_goals omega
      have hrge : KB_REPEAT_START_MS ≤ ((rtHold t cc w).press_ms + 10) % U32 := by
        rw [hpress]
        simp only [KB_REPEAT_START_MS]
        omega
      by_cases hC : 57 ≤ t + 1 ∧ (t + 1 - 49) % 8 = 0
      · rw [kb_step_gesture_press_repeat node 10 _ [] hstable hlneg hrge
          (by rw [hrep]
              simp only [KB_REPEAT_PERIOD_MS]
              have h50 : 50 ≤ t := by omega
              rw [if_pos h50]
              omega)]
        rw [hpress]
        refine Prod.ext ?_ ?_
        · simp only [rtHold]
          split_ifs <;>
          simp only [kb_key_runtime_t.mk.injEq, true_and, and_true] <;> omega
        · have h80 : t + 1 ≠ 80 := by omega
          rw [if_pos hC, if_neg h80]
          simp [kb_push, KB_MAX_KEYS]
      · rw [kb_step_gesture_press_reptick node 10 _ [] hstable hlneg hrge
          (by rw [hrep]
              simp only [KB_REPEAT_PERIOD_MS]
              split_ifs with h50 <;> omega)]
        rw [hpress, hrep]
        refine Prod.ext ?_ ?_
        · simp only [rtHold]
          split_ifs <;>
          simp only [kb_key_runtime_t.mk.injEq, true_and, and_true] <;> omega
        · have h80 : t + 1 ≠ 80 := by omega
          rw [if_neg hC, if_neg h80]
          rfl

/-- Counting over the empty recorded list. -/
lemma kb_count_nil (e : kb_event_t) : kb_count e [] = 0 := rfl

/-- Counting over a one-event recorded list. -/
lemma kb_count_single (e e' : kb_event_t) (node : keyboard_que_t) :
    kb_count e [(node, e')] = if e' = e then 1 else 0 := by
  cases e <;> cases e' <;> rfl

/-- Holding the key for `m` further ticks from the held-press state:
the state advances `m` ticks, REPEAT fires once per elapsed repeat
period past the repeat start, LONGPRESS fires exactly at the long-press
crossing, and nothing else fires. -/
lemma c2_steps_hold (node : keyboard_que_t) (m t cc w : Nat) (ht : 1 ≤ t)
    (hb : 10 * (t + m) + 10 < U32) :
    (kb_steps node 10 (List.replicate m 1) (rtHold t cc w)).1 =
      rtHold (t + m) cc w ∧
    kb_count .KB_EVT_REPEAT
        (kb_steps node 10 (List.replicate m 1) (rtHold t cc w)).2 =
      (t + m - 49) / 8 - (t - 49) / 8 ∧
    kb_count .KB_EVT_LONGPRESS
        (kb_steps node 10 (List.replicate m 1) (rtHold t cc w)).2 =
      (if 80 ≤ t + m then 1 else 0) - (if 80 ≤ t then 1 else 0) ∧
    (∀ e, e ≠ .KB_EVT_REPEAT → e ≠ .KB_EVT_LONGPRESS →
      kb_count e (kb_steps node 10 (List.replicate m 1) (rtHold t cc w)).2 = 0) := by
  induction m generalizing t with
  | zero =>
      refine ⟨by simp [kb_steps], by simp [kb_steps, kb_count], by
        simp [kb_steps, kb_count], fun e _ _ => by simp [kb_steps, kb_count]⟩
  | succ n ih =>
      rw [List.replicate_succ]
      simp only [kb_steps]
      rw [c2_step_hold node t cc w ht (by omega)]
      dsimp only
      obtain ⟨hstate, hrep, hlong, hother⟩ := ih (t + 1) (by omega)
        (by have : t + 1 + n = t + (n + 1) := by omega
            rw [this]; exact hb)
      have harr : t + 1 + n = t + (n + 1) := by omega
      rw [harr] at hstate hrep hlong
      refine ⟨hstate, ?_, ?_, ?_⟩
      · have hcL : kb_count .KB_EVT_REPEAT
            (if t + 1 = 80 then [(node, kb_event_t.KB_EVT_LONGPRESS)]
             else ([] : List (keyboard_que_t × kb_event_t))) = 0 := by
          split_ifs <;> rfl
        have hcR : kb_count .KB_EVT_REPEAT
            (if 57 ≤ t + 1 ∧ (t + 1 - 49) % 8 = 0
             then [(node, kb_event_t.KB_EVT_REPEAT)]
             else ([] : List (keyboard_que_t × kb_event_t))) =
            (if 57 ≤ t + 1 ∧ (t + 1 - 49) % 8 = 0 then 1 else 0) := by
          split_ifs <;> rfl
        rw [kb_count_append, kb_count_append, hcL, hcR, hrep]
        by_cases hC : 57 ≤ t + 1 ∧ (t + 1 - 49) % 8 = 0
        · rw [if_pos hC]
          obtain ⟨hC1, hC2⟩ := hC
          omega
        · rw [if_neg hC]
          push_neg at hC
          omega
      · have hcL : kb_count .KB_EVT_LONGPRESS
            (if t + 1 = 80 then [(node, kb_event_t.KB_EVT_LONGPRESS)]
             else ([] : List (keyboard_que_t × kb_event_t))) =
            (if t + 1 = 80 then 1 else 0) := by
          split_ifs <;> rfl
        have hcR : kb_count .KB_EVT_LONGPRESS
            (if 57 ≤ t + 1 ∧ (t + 1 - 49) % 8 = 0
             then [(node, kb_event_t.KB_EVT_REPEAT)]
             else ([] : List (keyboard_que_t × kb_event_t))) = 0 := by
          split_ifs <;> rfl
        rw [kb_count_append, kb_count_append, hcL, hcR, hlong]
        split_ifs <;> omega
      · intro e he1 he2
        have hcL : kb_count e
            (if t + 1 = 80 then [(node, kb_event_t.KB_EVT_LONGPRESS)]
             else ([] : List (keyboard_que_t × kb_event_t))) = 0 := by
          split_ifs
          · rw [kb_count_single]
            exact if_neg (Ne.symm he2)
          · rfl
        have hcR : kb_count e
            (if 57 ≤ t + 1 ∧ (t + 1 - 49) % 8 = 0
             then [(node, kb_event_t.KB_EVT_REPEAT)]
             else ([] : List (keyboard_que_t × kb_event_t))) = 0 := by
          split_ifs
          · rw [kb_count_single]
            exact if_neg (Ne.symm he1)
          · rfl
        rw [kb_count_append, kb_count_append, hcL, hcR, hother e he1 he2]

/-- Flip tick to pressed at 10 ms granularity, pending click and wait
carried through untouched. -/
lemma c3_step_press_flip (node : keyboard_que_t) (cc w : Nat) :
    kb_key_step node 1 10 ⟨1, 0, 0, cc, 10, 0, 0, w⟩ [] =
      (⟨1, 1, 0, cc, 20, 10, 0, w⟩, [(node, .KB_EVT_PRESS)]) := by
  unfold kb_key_step
  rw [kb_step_debounce_same_lt 1 10 _ rfl (by dsimp only; simp [KB_DEBOUNCE_MS])]
  dsimp only
  rw [Nat.mod_eq_of_lt (by simp [U32])]
  rw [kb_step_stabilize_press _ _ _ (by dsimp only; simp [KB_DEBOUNCE_MS])
    (by dsimp only; omega) (by dsimp only; omega)]
  dsimp only
  rw [kb_step_gesture_press_quiet _ _ _ _ (by dsimp only; omega)
    (by dsimp only
        rw [Nat.mod_eq_of_lt (by simp [U32])]
        simp [KB_LONGPRESS_MS])
    (by dsimp only
        rw [Nat.mod_eq_of_lt (by simp [U32])]
        simp [KB_REPEAT_START_MS])]
  rw [Nat.mod_eq_of_lt (by simp [U32])]
  simp [kb_push, KB_MAX_KEYS]

/-- The first three pressed ticks from a settled released record with
no pending click: exactly one PRESS, ending in the held-press state. -/
lemma c2_steps_base (node : keyboard_que_t) (d : Nat) :
    kb_steps node 10 [1, 1, 1] (rtRel 0 d 0) =
      (rtHold 1 0 0, [(node, .KB_EVT_PRESS)]) := by
  simp only [kb_steps, rtRel]
  rw [show (kb_key_step node 1 10 ⟨0, 0, 0, 0, d, 0, 0, 0⟩ []) =
      (⟨1, 0, 0, 0, 0, 0, 0, 0⟩, []) from ?step1]
  · dsimp only
    rw [c1_step_quiet node 10 0 (by simp [KB_DEBOUNCE_MS]) (by simp [KB_DEBOUNCE_MS])]
    dsimp only
    rw [show (0 : Nat) + 10 = 10 from rfl]
    rw [c3_step_press_flip node 0 0]
    simp [rtHold]
  · unfold kb_key_step
    rw [kb_step_debounce_change 1 10 _ (by dsimp only; omega)]
    dsimp only
    rw [kb_step_stabilize_skip _ _ _ (fun hc => by
      have := hc.1
      dsimp only at this
      simp [KB_DEBOUNCE_MS] at this)]
    dsimp only
    rw [kb_step_gesture_idle _ _ _ _ rfl (by dsimp only; omega)]

/-- Full hold run counts: over `n ≥ 3` ticks at raw 1 from the zeroed
record, one PRESS, `(n-51)/8` REPEATs, one LONGPRESS iff the press time
`10*(n-2)` has reached the long-press threshold, and nothing else. -/
lemma c2_run_counts (node : keyboard_que_t) (n : Nat) (hn : 3 ≤ n)
    (hb : 10 * n + 10 < U32) :
    kb_count .KB_EVT_PRESS
        (kb_run1 node 10 (List.replicate n 1) [kb_rt_zero]).2 = 1 ∧
    kb_count .KB_EVT_LONGPRESS
        (kb_run1 node 10 (List.replicate n 1) [kb_rt_zero]).2 =
      (if 82 ≤ n then 1 else 0) ∧
    kb_count .KB_EVT_REPEAT
        (kb_run1 node 10 (List.replicate n 1) [kb_rt_zero]).2 =
      (n - 51) / 8 := by
  have hlev : ∀ l ∈ List.replicate n 1, l = 0 ∨ l = 1 := fun l hl =>
    Or.inr (List.eq_of_mem_replicate hl)
  rw [kb_run1_eq_steps node 10 _ kb_rt_zero [] (by omega) hlev]
  obtain ⟨m, rfl⟩ : ∃ m, n = 3 + m := ⟨n - 3, by omega⟩
  rw [show List.replicate (3 + m) (1 : Nat) =
      [1, 1, 1] ++ List.replicate m 1 from List.replicate_add 3 m 1]
  rw [kb_steps_append]
  have hbase : kb_steps node 10 [1, 1, 1] kb_rt_zero =
      (rtHold 1 0 0, [(node, .KB_EVT_PRESS)]) := c2_steps_base node 0
  rw [hbase]
  obtain ⟨hstate, hrep, hlong, hother⟩ := c2_steps_hold node m 1 0 0 le_rfl
    (by omega)
  refine ⟨?_, ?_, ?_⟩
  · rw [kb_count_append, hother .KB_EVT_PRESS (by decide) (by decide),
      kb_count_single, if_pos rfl]
  · rw [kb_count_append, hlong, kb_count_single,
      if_neg (by decide : ¬(kb_event_t.KB_EVT_PRESS = kb_event_t.KB_EVT_LONGPRESS)),
      if_neg (by omega : ¬(80 ≤ 1))]
    by_cases h82 : 82 ≤ 3 + m
    · rw [if_pos h82, if_pos (by omega : 80 ≤ 1 + m)]
    · rw [if_neg h82, if_neg (by omega : ¬(80 ≤ 1 + m))]
  · rw [kb_count_append, hrep, kb_count_single,
      if_neg (by decide : ¬(kb_event_t.KB_EVT_PRESS = kb_event_t.KB_EVT_REPEAT))]
    omega

/-- C2 counterexample: hold the key for 132 10 ms ticks, i.e. a press
time of 1300 ms = threshold_longpress + repeat_start + 0·repeat_period.
The claim predicts exactly 0 REPEAT events at that point; the code has
already emitted 10, because repeats are gated only by the repeat-start
threshold (500 ms), which lies below the long-press threshold. -/
theorem C2_repeat_formula_counterexample :
    kb_count .KB_EVT_REPEAT
        (kb_run1 nodeK 10 (List.replicate 132 1) [kb_rt_zero]).2 = 10 ∧
    kb_count .KB_EVT_REPEAT
        (kb_run1 nodeK 10 (List.replicate 132 1) [kb_rt_zero]).2 ≠ 0 := by
  obtain ⟨-, -, hrep⟩ := c2_run_counts nodeK 132 (by omega) (by simp [U32])
  rw [hrep]
  norm_num

/-- C2 (amended): for a key held stably pressed from the zeroed record
(`n` ticks of 10 ms; press time `10*(n-2)` once recognised), exactly one
PRESS and exactly one LONGPRESS per press (the latter iff the press
time reaches the long-press threshold, never twice), and REPEAT events
fire once per repeat period gated by the repeat-start threshold alone:
`(n-51)/8` of them after `n` ticks, hence exactly `k` REPEATs when the
press time reaches `repeat_start + k*repeat_period`
(`n = 52 + 8*k`). -/
theorem C2_longpress_repeat (node : keyboard_que_t) (n k : Nat)
    (hn : 3 ≤ n) (hb : 10 * n + 10 < U32) :
    kb_count .KB_EVT_PRESS
        (kb_run1 node 10 (List.replicate n 1) [kb_rt_zero]).2 = 1 ∧
    kb_count .KB_EVT_LONGPRESS
        (kb_run1 node 10 (List.replicate n 1) [kb_rt_zero]).2 =
      (if KB_LONGPRESS_MS ≤ 10 * (n - 2) then 1 else 0) ∧
    kb_count .KB_EVT_REPEAT
        (kb_run1 node 10 (List.replicate n 1) [kb_rt_zero]).2 =
      (n - 51) / 8 ∧
    (n = 52 + 8 * k →
      kb_count .KB_EVT_REPEAT
          (kb_run1 node 10 (List.replicate n 1) [kb_rt_zero]).2 = k) := by
  obtain ⟨hpress, hlong, hrep⟩ := c2_run_counts node n hn hb
  refine ⟨hpress, ?_, hrep, ?_⟩
  · rw [hlong]
    simp only [KB_LONGPRESS_MS]
    split_ifs <;> omega
  · intro hk
    rw [hrep, hk]
    omega

/-- Witness for C2: 60 ticks is press time 580 ms = repeat_start + 1
period: one PRESS, no LONGPRESS yet, exactly one REPEAT. -/
theorem C2_longpress_repeat_witness :
    kb_count .KB_EVT_PRESS
        (kb_run1 nodeK 10 (List.replicate 60 1) [kb_rt_zero]).2 = 1 ∧
    kb_count .KB_EVT_REPEAT
        (kb_run1 nodeK 10 (List.replicate 60 1) [kb_rt_zero]).2 = 1 := by
  obtain ⟨h1, h2, h3, h4⟩ := C2_longpress_repeat nodeK 60 1 (by omega)
    (by simp [U32])
  exact ⟨h1, h4 rfl⟩

/-! ## Theorems: click and double click (C3) -/

/-- Waiting tick with a pending click, window not yet reached. -/
lemma c3_step_wait (node : keyboard_que_t) (w : Nat) (hw : w + 10 < 250) :
    kb_key_step node 0 10 (rtRel 1 20 w) [] = (rtRel 1 20 (w + 10), []) := by
  rw [kb_key_step_released node 10 _ [] rfl rfl (by simp [rtRel, KB_DEBOUNCE_MS])]
  rw [kb_step_gesture_wait _ _ _ _ rfl rfl ?hlt]
  case hlt =>
    simp only [rtRel]
    rw [Nat.mod_eq_of_lt (by simp only [U32]; omega)]
    simp only [KB_DOUBLE_CLICK_MS]
    omega
  simp only [rtRel]
  rw [Nat.mod_eq_of_lt (by simp only [U32]; omega)]

/-- Waiting tick with a pending click, window reached: CLICK fires. -/
lemma c3_step_click (node : keyboard_que_t) (w : Nat) (hw : 250 ≤ w + 10)
    (hwb : w + 10 < U32) :
    kb_key_step node 0 10 (rtRel 1 20 w) [] =
      (rtRel 0 20 0, [(node, .KB_EVT_CLICK)]) := by
  rw [kb_key_step_released node 10 _ [] rfl rfl (by simp [rtRel, KB_DEBOUNCE_MS])]
  rw [kb_step_gesture_click _ _ _ _ rfl rfl ?hge]
  case hge =>
    simp only [rtRel]
    rw [Nat.mod_eq_of_lt hwb]
    simp only [KB_DOUBLE_CLICK_MS]
    omega
  simp [rtRel, kb_push, KB_MAX_KEYS]

/-- First released tick from a short held press: the raw change resets
debounce, the press timer still runs one tick. -/
lemma c3_step_rel1 (node : keyboard_que_t) (t cc w : Nat) (ht47 : t ≤ 47) :
    kb_key_step node 0 10 (rtHold t cc w) [] =
      (⟨0, 1, 0, cc, 0, 10 * t + 10, 0, w⟩, []) := by
  unfold kb_key_step
  rw [kb_step_debounce_change 0 10 _ (by simp [rtHold])]
  rw [kb_step_stabilize_skip _ _ _ (fun hc => by
    have := hc.1
    simp [rtHold, KB_DEBOUNCE_MS] at this)]
  dsimp only
  have hpr : (10 * t + 10) % U32 = 10 * t + 10 :=
    Nat.mod_eq_of_lt (by simp only [U32]; omega)
  rw [kb_step_gesture_press_quiet _ _ _ _ (by simp [rtHold])
    (by simp only [rtHold]
        rw [hpr]
        rintro ⟨-, hle⟩
        simp only [KB_LONGPRESS_MS] at hle
        omega)
    (by simp only [rtHold]
        rw [hpr]
        simp only [KB_REPEAT_START_MS]
        omega)]
  simp only [rtHold, hpr]
  rw [if_neg (by omega), if_neg (by omega)]

/-- Second released tick: debounce grows, press timer still runs. -/
lemma c3_step_rel2 (node : keyboard_que_t) (cc p w : Nat) (hp : p + 10 < 500) :
    kb_key_step node 0 10 ⟨0, 1, 0, cc, 0, p, 0, w⟩ [] =
      (⟨0, 1, 0, cc, 10, p + 10, 0, w⟩, []) := by
  unfold kb_key_step
  rw [kb_step_debounce_same_lt 0 10 _ rfl (by simp [KB_DEBOUNCE_MS])]
  dsimp only
  rw [Nat.mod_eq_of_lt (by simp [U32])]
  rw [kb_step_stabilize_skip _ _ _ (fun hc => by
    have := hc.1
    simp [KB_DEBOUNCE_MS] at this)]
  dsimp only
  have hpr : (p + 10) % U32 = p + 10 :=
    Nat.mod_eq_of_lt (by simp only [U32]; omega)
  rw [kb_step_gesture_press_quiet _ _ _ _ (by simp)
    (by dsimp only
        rw [hpr]
        rintro ⟨-, hle⟩
        simp only [KB_LONGPRESS_MS] at hle
        omega)
    (by dsimp only
        rw [hpr]
        simp only [KB_REPEAT_START_MS]
        omega)]
  rw [hpr]

/-- Third released tick: the release stabilises with no pending click;
RELEASE is recorded and one click becomes pending. -/
lemma c3_step_relflip_first (node : keyboard_que_t) (p w : Nat) :
    kb_key_step node 0 10 ⟨0, 1, 0, 0, 10, p, 0, w⟩ [] =
      (rtRel 1 20 10, [(node, .KB_EVT_RELEASE)]) := by
  unfold kb_key_step
  rw [kb_step_debounce_same_lt 0 10 _ rfl (by simp [KB_DEBOUNCE_MS])]
  dsimp only
  rw [Nat.mod_eq_of_lt (by simp [U32])]
  rw [kb_step_stabilize_release_first _ _ _ (by simp [KB_DEBOUNCE_MS])
    (by simp) rfl rfl rfl]
  dsimp only
  rw [kb_step_gesture_wait _ _ _ _ rfl rfl (by
    rw [Nat.mod_eq_of_lt (by simp [U32])]
    simp [KB_DOUBLE_CLICK_MS])]
  rw [Nat.mod_eq_of_lt (by simp [U32])]
  simp [rtRel, kb_push, KB_MAX_KEYS]

/-- Third released tick with one pending click still inside the
window: RELEASE then DOUBLE_CLICK are recorded, pending state cleared. -/
lemma c3_step_relflip_double (node : keyboard_que_t) (p w : Nat)
    (hw : w ≤ 250) :
    kb_key_step node 0 10 ⟨0, 1, 0, 1, 10, p, 0, w⟩ [] =
      (rtRel 0 20 0, [(node, .KB_EVT_RELEASE), (node, .KB_EVT_DOUBLE_CLICK)]) := by
  unfold kb_key_step
  rw [kb_step_debounce_same_lt 0 10 _ rfl (by simp [KB_DEBOUNCE_MS])]
  dsimp only
  rw [Nat.mod_eq_of_lt (by simp [U32])]
  rw [kb_step_stabilize_release_double _ _ _ (by simp [KB_DEBOUNCE_MS])
    (by simp) rfl rfl rfl
    (by dsimp only
        simp only [KB_DOUBLE_CLICK_MS]
        omega)]
  dsimp only
  rw [kb_step_gesture_idle _ _ _ _ rfl (by simp)]
  simp [rtRel, kb_push, KB_MAX_KEYS]

/-- First tick of a second press while a click is pending: the raw
change resets debounce and the double-click wait keeps running. -/
lemma c3_step_pressdeb1 (node : keyboard_que_t) (w : Nat) (hw : w + 10 < 250) :
    kb_key_step node 1 10 (rtRel 1 20 w) [] =
      (⟨1, 0, 0, 1, 0, 0, 0, w + 10⟩, []) := by
  unfold kb_key_step
  rw [kb_step_debounce_change 1 10 _ (by simp [rtRel])]
  rw [kb_step_stabilize_skip _ _ _ (fun hc => by
    have := hc.1
    simp [rtRel, KB_DEBOUNCE_MS] at this)]
  dsimp only
  rw [kb_step_gesture_wait _ _ _ _ (by simp [rtRel]) (by simp [rtRel]) (by
    simp only [rtRel]
    rw [Nat.mod_eq_of_lt (by simp only [U32]; omega)]
    simp only [KB_DOUBLE_CLICK_MS]
    omega)]
  simp only [rtRel]
  rw [Nat.mod_eq_of_lt (by simp only [U32]; omega)]

/-- Second tick of a second press while a click is pending. -/
lemma c3_step_pressdeb2 (node : keyboard_que_t) (w : Nat) (hw : w + 10 < 250) :
    kb_key_step node 1 10 ⟨1, 0, 0, 1, 0, 0, 0, w⟩ [] =
      (⟨1, 0, 0, 1, 10, 0, 0, w + 10⟩, []) := by
  unfold kb_key_step
  rw [kb_step_debounce_same_lt 1 10 _ rfl (by simp [KB_DEBOUNCE_MS])]
  dsimp only
  rw [Nat.mod_eq_of_lt (by simp [U32])]
  rw [kb_step_stabilize_skip _ _ _ (fun hc => by
    have := hc.1
    simp [KB_DEBOUNCE_MS] at this)]
  dsimp only
  rw [kb_step_gesture_wait _ _ _ _ rfl rfl (by
    dsimp only
    rw [Nat.mod_eq_of_lt (by simp only [U32]; omega)]
    simp only [KB_DOUBLE_CLICK_MS]
    omega)]
  dsimp only
  rw [Nat.mod_eq_of_lt (by simp only [U32]; omega)]

/-- Three released ticks from a short held press with no pending click:
exactly one RELEASE, one click pending, wait at one tick. -/
lemma c3_steps_rel3_first (node : keyboard_que_t) (t cc w : Nat)
    (ht47 : t ≤ 47) (hcc : cc = 0) :
    kb_steps node 10 [0, 0, 0] (rtHold t cc w) =
      (rtRel 1 20 10, [(node, .KB_EVT_RELEASE)]) := by
  subst hcc
  simp only [kb_steps]
  rw [c3_step_rel1 node t 0 w ht47]
  dsimp only
  rw [c3_step_rel2 node 0 (10 * t + 10) w (by omega)]
  dsimp only
  rw [c3_step_relflip_first node (10 * t + 10 + 10) w]
  simp

/-- Three released ticks from a short held press with a pending click
inside the window: RELEASE then DOUBLE_CLICK. -/
lemma c3_steps_rel3_double (node : keyboard_que_t) (t w : Nat)
    (ht47 : t ≤ 47) (hw : w ≤ 250) :
    kb_steps node 10 [0, 0, 0] (rtHold t 1 w) =
      (rtRel 0 20 0, [(node, .KB_EVT_RELEASE), (node, .KB_EVT_DOUBLE_CLICK)]) := by
  simp only [kb_steps]
  rw [c3_step_rel1 node t 1 w ht47]
  dsimp only
  rw [c3_step_rel2 node 1 (10 * t + 10) w (by omega)]
  dsimp only
  rw [c3_step_relflip_double node (10 * t + 10 + 10) w hw]
  simp

/-- Three pressed ticks of a second press arriving while a click is
pending: PRESS, with the wait frozen two ticks later. -/
lemma c3_steps_press3_second (node : keyboard_que_t) (w : Nat)
    (hw : w + 20 < 250) :
    kb_steps node 10 [1, 1, 1] (rtRel 1 20 w) =
      (rtHold 1 1 (w + 10 + 10), [(node, .KB_EVT_PRESS)]) := by
  simp only [kb_steps]
  rw [c3_step_pressdeb1 node w (by omega)]
  dsimp only
  rw [c3_step_pressdeb2 node (w + 10) (by omega)]
  dsimp only
  rw [c3_step_press_flip node 1 (w + 10 + 10)]
  simp [rtHold]

/-- Quiet stretch of the double-click wait: from wait tick `i`, `m`
released ticks with `i + m` still inside the window accumulate the
wait with no events. -/
lemma c3_steps_wait_quiet (node : keyboard_que_t) (m i : Nat)
    (hi : 1 ≤ i) (him : i + m ≤ 24) :
    kb_steps node 10 (List.replicate m 0) (rtRel 1 20 (10 * i)) =
      (rtRel 1 20 (10 * (i + m)), []) := by
  induction m generalizing i with
  | zero => simp [kb_steps]
  | succ n ih =>
      rw [List.replicate_succ]
      simp only [kb_steps]
      rw [c3_step_wait node (10 * i) (by omega)]
      dsimp only
      rw [show (10 : Nat) * i + 10 = 10 * (i + 1) from by ring]
      rw [ih (i + 1) (by omega) (by omega)]
      dsimp only
      rw [show i + 1 + n = i + (n + 1) from by omega]
      simp

/-- Full double-click wait run: from wait tick `i ≤ 24`, over `m`
released ticks exactly one CLICK fires iff the window elapses within
them, and nothing else fires. -/
lemma c3_steps_wait_counts (node : keyboard_que_t) (m i : Nat)
    (hi : 1 ≤ i) (hile : i ≤ 24) :
    kb_count .KB_EVT_CLICK
        (kb_steps node 10 (List.replicate m 0) (rtRel 1 20 (10 * i))).2 =
      (if 25 - i ≤ m then 1 else 0) ∧
    (∀ e, e ≠ .KB_EVT_CLICK →
      kb_count e
        (kb_steps node 10 (List.replicate m 0) (rtRel 1 20 (10 * i))).2 = 0) := by
  induction m generalizing i with
  | zero =>
      refine ⟨?_, fun e he => by simp [kb_steps, kb_count_nil]⟩
      rw [if_neg (by omega)]
      rfl
  | succ n ih =>
      rw [List.replicate_succ]
      simp only [kb_steps]
      by_cases h24 : i = 24
      · subst h24
        rw [c3_step_click node 240 (by omega) (by simp [U32])]
        dsimp only
        obtain ⟨hevts, h1, h2, h3⟩ := c1_steps_idle node 10 n (rtRel 0 20 0)
          rfl rfl rfl
        rw [hevts]
        refine ⟨?_, fun e he => ?_⟩
        · rw [if_pos (by omega)]
          rfl
        · rw [kb_count_append, kb_count_single, if_neg (Ne.symm he),
            kb_count_nil]
      · rw [c3_step_wait node (10 * i) (by omega)]
        rw [show (10 : Nat) * i + 10 = 10 * (i + 1) from by ring]
        dsimp only
        obtain ⟨hclick, hother⟩ := ih (i + 1) (by omega) (by omega)
        refine ⟨?_, fun e he => ?_⟩
        · rw [kb_count_append, kb_count_nil, hclick]
          split_ifs <;> omega
        · rw [kb_count_append, kb_count_nil, hother e he]

/-- First pressed phase: `a` pressed ticks from the zeroed record give
exactly one PRESS and end in the short held-press state. -/
lemma c3_phase1 (node : keyboard_que_t) (a : Nat) (ha3 : 3 ≤ a) (ha : a ≤ 49) :
    (kb_steps node 10 (List.replicate a 1) kb_rt_zero).1 = rtHold (a - 2) 0 0 ∧
    kb_count .KB_EVT_PRESS
      (kb_steps node 10 (List.replicate a 1) kb_rt_zero).2 = 1 ∧
    (∀ e, e ≠ .KB_EVT_PRESS →
      kb_count e (kb_steps node 10 (List.replicate a 1) kb_rt_zero).2 = 0) := by
  obtain ⟨m, rfl⟩ : ∃ m, a = 3 + m := ⟨a - 3, by omega⟩
  rw [show List.replicate (3 + m) (1 : Nat) =
      [1, 1, 1] ++ List.replicate m 1 from List.replicate_add 3 m 1]
  rw [kb_steps_append]
  have hbase : kb_steps node 10 [1, 1, 1] kb_rt_zero =
      (rtHold 1 0 0, [(node, .KB_EVT_PRESS)]) := c2_steps_base node 0
  rw [hbase]
  obtain ⟨hstate, hrep, hlong, hother⟩ := c2_steps_hold node m 1 0 0 le_rfl
    (by simp only [U32]; omega)
  refine ⟨?_, ?_, ?_⟩
  · dsimp only
    rw [hstate]
    congr 1
    omega
  · dsimp only
    rw [kb_count_append, kb_count_single, if_pos rfl,
      hother .KB_EVT_PRESS (by decide) (by decide)]
  · intro e he
    dsimp only
    rw [kb_count_append, kb_count_single, if_neg (Ne.symm he)]
    cases e with
    | KB_EVT_PRESS => exact absurd rfl he
    | KB_EVT_REPEAT => rw [hrep]; omega
    | KB_EVT_LONGPRESS =>
        rw [hlong, if_neg (by omega), if_neg (by omega)]
    | KB_EVT_RELEASE => rw [hother _ (by decide) (by decide)]
    | KB_EVT_CLICK => rw [hother _ (by decide) (by decide)]
    | KB_EVT_LONGPRESS_RELEASE => rw [hother _ (by decide) (by decide)]
    | KB_EVT_DOUBLE_CLICK => rw [hother _ (by decide) (by decide)]

/-- Second pressed phase: `c` pressed ticks arriving while one click is
pending give exactly one PRESS, the wait frozen two ticks in. -/
lemma c3_phase3 (node : keyboard_que_t) (c w : Nat) (hc3 : 3 ≤ c)
    (hc : c ≤ 49) (hw : w + 20 < 250) :
    (kb_steps node 10 (List.replicate c 1) (rtRel 1 20 w)).1 =
      rtHold (c - 2) 1 (w + 10 + 10) ∧
    kb_count .KB_EVT_PRESS
      (kb_steps node 10 (List.replicate c 1) (rtRel 1 20 w)).2 = 1 ∧
    (∀ e, e ≠ .KB_EVT_PRESS →
      kb_count e (kb_steps node 10 (List.replicate c 1) (rtRel 1 20 w)).2 = 0) := by
  obtain ⟨m, rfl⟩ : ∃ m, c = 3 + m := ⟨c - 3, by omega⟩
  rw [show List.replicate (3 + m) (1 : Nat) =
      [1, 1, 1] ++ List.replicate m 1 from List.replicate_add 3 m 1]
  rw [kb_steps_append]
  rw [c3_steps_press3_second node w hw]
  obtain ⟨hstate, hrep, hlong, hother⟩ :=
    c2_steps_hold node m 1 1 (w + 10 + 10) le_rfl (by simp only [U32]; omega)
  refine ⟨?_, ?_, ?_⟩
  · dsimp only
    rw [hstate]
    congr 1
    omega
  · dsimp only
    rw [kb_count_append, kb_count_single, if_pos rfl,
      hother .KB_EVT_PRESS (by decide) (by decide)]
  · intro e he
    dsimp only
    rw [kb_count_append, kb_count_single, if_neg (Ne.symm he)]
    cases e with
    | KB_EVT_PRESS => exact absurd rfl he
    | KB_EVT_REPEAT => rw [hrep]; omega
    | KB_EVT_LONGPRESS =>
        rw [hlong, if_neg (by omega), if_neg (by omega)]
    | KB_EVT_RELEASE => rw [hother _ (by decide) (by decide)]
    | KB_EVT_CLICK => rw [hother _ (by decide) (by decide)]
    | KB_EVT_LONGPRESS_RELEASE => rw [hother _ (by decide) (by decide)]
    | KB_EVT_DOUBLE_CLICK => rw [hother _ (by decide) (by decide)]

/-- Released run from a short held press with no pending click: one
RELEASE once the release debounces, one CLICK exactly when the
double-click window elapses, nothing else. -/
lemma c3_release_run_first (node : keyboard_que_t) (t m : Nat)
    (ht : 1 ≤ t) (ht47 : t ≤ 47) :
    kb_count .KB_EVT_CLICK
      (kb_steps node 10 (List.replicate m 0) (rtHold t 0 0)).2 =
      (if 27 ≤ m then 1 else 0) ∧
    kb_count .KB_EVT_RELEASE
      (kb_steps node 10 (List.replicate m 0) (rtHold t 0 0)).2 =
      (if 3 ≤ m then 1 else 0) ∧
    (∀ e, e ≠ .KB_EVT_CLICK → e ≠ .KB_EVT_RELEASE →
      kb_count e (kb_steps node 10 (List.replicate m 0) (rtHold t 0 0)).2 = 0) := by
  by_cases hm : 3 ≤ m
  · obtain ⟨q, rfl⟩ : ∃ q, m = 3 + q := ⟨m - 3, by omega⟩
    rw [show List.replicate (3 + q) (0 : Nat) =
        [0, 0, 0] ++ List.replicate q 0 from List.replicate_add 3 q 0]
    rw [kb_steps_append]
    rw [c3_steps_rel3_first node t 0 0 ht47 rfl]
    dsimp only
    rw [show (rtRel 1 20 10) = rtRel 1 20 (10 * 1) from rfl]
    obtain ⟨hclick, hother⟩ := c3_steps_wait_counts node q 1 le_rfl (by omega)
    refine ⟨?_, ?_, ?_⟩
    · rw [kb_count_append, kb_count_single, if_neg (by decide), hclick]
      split_ifs <;> omega
    · rw [kb_count_append, kb_count_single, if_pos rfl,
        hother _ (by decide), if_pos (by omega)]
    · intro e he1 he2
      rw [kb_count_append, kb_count_single, if_neg (Ne.symm he2),
        hother e he1]
  · push_neg at hm
    have hevts : (kb_steps node 10 (List.replicate m 0) (rtHold t 0 0)).2 = [] := by
      interval_cases m
      · rfl
      · simp only [List.replicate, kb_steps]
        rw [c3_step_rel1 node t 0 0 ht47]
        rfl
      · simp only [List.replicate, kb_steps]
        rw [c3_step_rel1 node t 0 0 ht47]
        dsimp only
        rw [c3_step_rel2 node 0 (10 * t + 10) 0 (by omega)]
        rfl
    rw [hevts]
    exact ⟨by rw [if_neg (by omega)]; rfl,
      by rw [if_neg (by omega)]; rfl, fun e _ _ => rfl⟩

/-- Scenario A: one short press of `a` ticks then `m` released ticks —
exactly one PRESS; one RELEASE once the release debounces; exactly one
CLICK, emitted only once the double-click window elapses (`m ≥ 27`
ticks: 3 release-debounce ticks plus the 24 further ticks after which
the wait reaches 250 ms); never a DOUBLE_CLICK. -/
lemma c3_scenarioA (node : keyboard_que_t) (a m : Nat) (ha3 : 3 ≤ a)
    (ha : a ≤ 49) :
    kb_count .KB_EVT_CLICK
      (kb_run1 node 10 (List.replicate a 1 ++ List.replicate m 0)
        [kb_rt_zero]).2 = (if 27 ≤ m then 1 else 0) ∧
    kb_count .KB_EVT_DOUBLE_CLICK
      (kb_run1 node 10 (List.replicate a 1 ++ List.replicate m 0)
        [kb_rt_zero]).2 = 0 ∧
    kb_count .KB_EVT_PRESS
      (kb_run1 node 10 (List.replicate a 1 ++ List.replicate m 0)
        [kb_rt_zero]).2 = 1 ∧
    kb_count .KB_EVT_RELEASE
      (kb_run1 node 10 (List.replicate a 1 ++ List.replicate m 0)
        [kb_rt_zero]).2 = (if 3 ≤ m then 1 else 0) := by
  have hlev : ∀ l ∈ List.replicate a 1 ++ List.replicate m 0, l = 0 ∨ l = 1 := by
    intro l hl
    rcases List.mem_append.mp hl with h | h
    · right; exact List.eq_of_mem_replicate h
    · left; exact List.eq_of_mem_replicate h
  rw [kb_run1_eq_steps node 10 _ kb_rt_zero [] (by omega) hlev]
  rw [kb_steps_append]
  obtain ⟨hstate1, hpress1, hother1⟩ := c3_phase1 node a ha3 ha
  rw [hstate1]
  obtain ⟨hclick2, hrel2, hother2⟩ := c3_release_run_first node (a - 2) m
    (by omega) (by omega)
  refine ⟨?_, ?_, ?_, ?_⟩
  · rw [kb_count_append, hother1 _ (by decide), hclick2]
    omega
  · rw [kb_count_append, hother1 _ (by decide),
      hother2 _ (by decide) (by decide)]
  · rw [kb_count_append, hpress1, hother2 _ (by decide) (by decide)]
  · rw [kb_count_append, hother1 _ (by decide), hrel2]
    omega

/-- Scenario B: two short presses whose second press arrives while the
double-click wait is inside the window and stabilises before the
window elapses (gap of `g ≤ 24` released ticks) — exactly one
DOUBLE_CLICK on the second release, zero CLICK events. -/
lemma c3_scenarioB (node : keyboard_que_t) (a g c b : Nat)
    (ha3 : 3 ≤ a) (ha : a ≤ 49) (hg3 : 3 ≤ g) (hg : g ≤ 24)
    (hc3 : 3 ≤ c) (hc : c ≤ 49) (hb3 : 3 ≤ b) :
    kb_count .KB_EVT_DOUBLE_CLICK
      (kb_run1 node 10
        (List.replicate a 1 ++ (List.replicate g 0 ++
          (List.replicate c 1 ++ List.replicate b 0))) [kb_rt_zero]).2 = 1 ∧
    kb_count .KB_EVT_CLICK
      (kb_run1 node 10
        (List.replicate a 1 ++ (List.replicate g 0 ++
          (List.replicate c 1 ++ List.replicate b 0))) [kb_rt_zero]).2 = 0 ∧
    kb_count .KB_EVT_PRESS
      (kb_run1 node 10
        (List.replicate a 1 ++ (List.replicate g 0 ++
          (List.replicate c 1 ++ List.replicate b 0))) [kb_rt_zero]).2 = 2 ∧
    kb_count .KB_EVT_RELEASE
      (kb_run1 node 10
        (List.replicate a 1 ++ (List.replicate g 0 ++
          (List.replicate c 1 ++ List.replicate b 0))) [kb_rt_zero]).2 = 2 := by
  have hlev : ∀ l ∈ List.replicate a 1 ++ (List.replicate g 0 ++
      (List.replicate c 1 ++ List.replicate b 0)), l = 0 ∨ l = 1 := by
    intro l hl
    rcases List.mem_append.mp hl with h | h
    · right; exact List.eq_of_mem_replicate h
    · rcases List.mem_append.mp h with h | h
      · left; exact List.eq_of_mem_replicate h
      · rcases List.mem_append.mp h with h | h
        · right; exact List.eq_of_mem_replicate h
        · left; exact List.eq_of_mem_replicate h
  rw [kb_run1_eq_steps node 10 _ kb_rt_zero [] (by omega) hlev]
  rw [kb_steps_append node 10 (List.replicate a 1)
    (List.replicate g 0 ++ (List.replicate c 1 ++ List.replicate b 0))]
  obtain ⟨hstate1, hpress1, hother1⟩ := c3_phase1 node a ha3 ha
  rw [hstate1]
  -- phase 2: g released ticks, gap inside the window
  rw [kb_steps_append node 10 (List.replicate g 0)
    (List.replicate c 1 ++ List.replicate b 0)]
  obtain ⟨q, rfl⟩ : ∃ q, g = 3 + q := ⟨g - 3, by omega⟩
  rw [show List.replicate (3 + q) (0 : Nat) =
      [0, 0, 0] ++ List.replicate q 0 from List.replicate_add 3 q 0]
  rw [kb_steps_append node 10 [0, 0, 0] (List.replicate q 0)]
  rw [c3_steps_rel3_first node (a - 2) 0 0 (by omega) rfl]
  dsimp only
  rw [show (rtRel 1 20 10) = rtRel 1 20 (10 * 1) from rfl]
  rw [c3_steps_wait_quiet node q 1 le_rfl (by omega)]
  dsimp only
  -- phase 3: second press
  rw [kb_steps_append node 10 (List.replicate c 1) (List.replicate b 0)]
  obtain ⟨hstate3, hpress3, hother3⟩ := c3_phase3 node c (10 * (1 + q))
    hc3 hc (by omega)
  rw [hstate3]
  -- phase 4: second release, double click
  obtain ⟨r, rfl⟩ : ∃ r, b = 3 + r := ⟨b - 3, by omega⟩
  rw [show List.replicate (3 + r) (0 : Nat) =
      [0, 0, 0] ++ List.replicate r 0 from List.replicate_add 3 r 0]
  rw [kb_steps_append node 10 [0, 0, 0] (List.replicate r 0)]
  rw [c3_steps_rel3_double node (c - 2) (10 * (1 + q) + 10 + 10)
    (by omega) (by omega)]
  dsimp only
  obtain ⟨hidle, -, -, -⟩ := c1_steps_idle node 10 r (rtRel 0 20 0) rfl rfl rfl
  rw [hidle]
  have hpair : ∀ e : kb_event_t,
      kb_count e [(node, kb_event_t.KB_EVT_RELEASE),
        (node, kb_event_t.KB_EVT_DOUBLE_CLICK)] =
      (if kb_event_t.KB_EVT_RELEASE = e then 1 else 0) +
      (if kb_event_t.KB_EVT_DOUBLE_CLICK = e then 1 else 0) := by
    intro e
    rw [show [(node, kb_event_t.KB_EVT_RELEASE),
        (node, kb_event_t.KB_EVT_DOUBLE_CLICK)] =
      [(node, kb_event_t.KB_EVT_RELEASE)] ++
        [(node, kb_event_t.KB_EVT_DOUBLE_CLICK)] from rfl]
    rw [kb_count_append, kb_count_single, kb_count_single]
  refine ⟨?_, ?_, ?_, ?_⟩
  · simp only [kb_count_append, List.append_nil]
    rw [hother1 _ (by decide), hother3 _ (by decide), hpair]
    simp [kb_count_single, kb_count_nil]
  · simp only [kb_count_append, List.append_nil]
    rw [hother1 _ (by decide), hother3 _ (by decide), hpair]
    simp [kb_count_single, kb_count_nil]
  · simp only [kb_count_append, List.append_nil]
    rw [hpress1, hpress3, hpair]
    simp [kb_count_single, kb_count_nil]
  · simp only [kb_count_append, List.append_nil]
    rw [hother1 _ (by decide), hother3 _ (by decide), hpair]
    simp [kb_count_single, kb_count_nil]

/-- C3 counterexample: first press of 3 ticks, released gap of 25
ticks, second press of 3 ticks, 30 trailing released ticks (10 ms
each).  The second press arrives 230 ms after the first release was
recognised — within the 250 ms double-click window — yet the run
yields zero DOUBLE_CLICK and two CLICK events, because the wait timer
keeps running through the second press's debounce interval and reaches
the window before the press stabilises. -/
theorem C3_double_click_window_counterexample :
    kb_count .KB_EVT_DOUBLE_CLICK
      (kb_run1 nodeK 10
        (List.replicate 3 1 ++ List.replicate 25 0 ++
          List.replicate 3 1 ++ List.replicate 30 0) [kb_rt_zero]).2 = 0 ∧
    kb_count .KB_EVT_CLICK
      (kb_run1 nodeK 10
        (List.replicate 3 1 ++ List.replicate 25 0 ++
          List.replicate 3 1 ++ List.replicate 30 0) [kb_rt_zero]).2 = 2 := by
  decide

/-- C3 (amended): with 10 ms ticks and a single registered key, (a) a
stable press/release pair followed by a stably released line yields
exactly one CLICK, emitted only on the tick at which the double-click
window elapses and never before, and no DOUBLE_CLICK; (b) two
press/release pairs yield exactly one DOUBLE_CLICK and zero CLICKs
provided the second press *stabilises* while the double-click wait is
still inside the window (released gap of at most 24 ticks) — mere
arrival of the raw press inside the window is not sufficient, since
the wait keeps running during the second press's debounce. -/
theorem C3_click_vs_double_click (node : keyboard_que_t) :
    (∀ a m, 3 ≤ a → a ≤ 49 →
      kb_count .KB_EVT_CLICK
        (kb_run1 node 10 (List.replicate a 1 ++ List.replicate m 0)
          [kb_rt_zero]).2 = (if 27 ≤ m then 1 else 0) ∧
      kb_count .KB_EVT_DOUBLE_CLICK
        (kb_run1 node 10 (List.replicate a 1 ++ List.replicate m 0)
          [kb_rt_zero]).2 = 0 ∧
      kb_count .KB_EVT_PRESS
        (kb_run1 node 10 (List.replicate a 1 ++ List.replicate m 0)
          [kb_rt_zero]).2 = 1 ∧
      kb_count .KB_EVT_RELEASE
        (kb_run1 node 10 (List.replicate a 1 ++ List.replicate m 0)
          [kb_rt_zero]).2 = (if 3 ≤ m then 1 else 0)) ∧
    (∀ a g c b, 3 ≤ a → a ≤ 49 → 3 ≤ g → g ≤ 24 → 3 ≤ c → c ≤ 49 → 3 ≤ b →
      kb_count .KB_EVT_DOUBLE_CLICK
        (kb_run1 node 10
          (List.replicate a 1 ++ (List.replicate g 0 ++
            (List.replicate c 1 ++ List.replicate b 0))) [kb_rt_zero]).2 = 1 ∧
      kb_count .KB_EVT_CLICK
        (kb_run1 node 10
          (List.replicate a 1 ++ (List.replicate g 0 ++
            (List.replicate c 1 ++ List.replicate b 0))) [kb_rt_zero]).2 = 0) := by
  refine ⟨fun a m ha3 ha => c3_scenarioA node a m ha3 ha,
    fun a g c b ha3 ha hg3 hg hc3 hc hb3 => ?_⟩
  obtain ⟨h1, h2, -, -⟩ := c3_scenarioB node a g c b ha3 ha hg3 hg hc3 hc hb3
  exact ⟨h1, h2⟩

/-- Witness for C3: a 3-tick tap with a 30-tick silence yields one
CLICK; a 3/10/3/5-tick double tap yields one DOUBLE_CLICK, no CLICK. -/
theorem C3_click_vs_double_click_witness :
    kb_count .KB_EVT_CLICK
      (kb_run1 nodeK 10 (List.replicate 3 1 ++ List.replicate 30 0)
        [kb_rt_zero]).2 = 1 ∧
    kb_count .KB_EVT_DOUBLE_CLICK
      (kb_run1 nodeK 10
        (List.replicate 3 1 ++ (List.replicate 10 0 ++
          (List.replicate 3 1 ++ List.replicate 5 0))) [kb_rt_zero]).2 = 1 := by
  obtain ⟨hA, hB⟩ := C3_click_vs_double_click nodeK
  constructor
  · obtain ⟨h1, -, -, -⟩ := hA 3 30 (by omega) (by omega)
    rw [h1]
    norm_num
  · exact (hB 3 10 3 5 (by omega) (by omega) (by omega) (by omega)
      (by omega) (by omega) (by omega)).1

end KeyboardRepo
